import Mathlib

/-!
# Upload-and-archive service (`cmd/main.go`)

A shallow embedding of the two HTTP handlers of `cmd/main.go`:

* `indexHandler` (lines 37-51), the landing page;
* `uploadFileHandler` (lines 53-121), which checks a multipart upload, copies the
  three uploaded files into a ZIP archive on disk, serves the archive and removes it.

The handlers are written as state-passing functions.  The state is the response
writer, the filesystem, the server log and a record of the operations performed.
Outcomes of operations whose error the handler inspects (`os.Create`,
`fileHeader.Open`, `zipWriter.Create`, `io.Copy`, `zipWriter.Close`) are read from
an environment `Env`, so that every pattern of I/O failure is covered.
Operations whose error the handler discards (`os.Remove`, the deferred `Close`
calls, `http.ServeFile`) are given their fault-free behaviour.

Standard-library calls are modelled from their documentation:
a ZIP file is seen as the ordered list of its entries (name and uncompressed
bytes) and a flag telling whether the central directory has been written.
The request carries what the library calls read from it: the error of the URL
query, the size of the body and of the part of it the multipart reader does not
read, the form in the body, and how its range and conditional headers make
`http.ServeFile` answer.
-/

namespace Upload

/-! ## Constants (lines 15-20) -/

/-- Line 16: `maxUploadSize = 30 * 1024 * 1024`. -/
def maxUploadSize : Nat := 30 * 1024 * 1024

/-- Line 17: `uploadPath = "./uploads"`. -/
def uploadPath : String := "./uploads"

/-- Line 18: `templatesPath = "html/templates"`. -/
def templatesPath : String := "html/templates"

/-- Line 19: `maxFiles = 3`. -/
def maxFiles : Nat := 3

/-! ## Strings and paths (standard library) -/

/-- Byte contents of files. -/
abbrev Bytes := List (Fin 256)

/-- The path separator test `os.IsPathSeparator` (Unix). -/
def isPathSeparator (c : Char) : Bool := decide (c = '/')

/-- The loop of `filepath.Ext`: the path is scanned from its end; a separator stops
the scan with the empty result, a dot returns the suffix starting at it.  The first
argument is what remains to scan (reversed), the second the suffix already passed. -/
def extScan : List Char → List Char → List Char
  | [], _ => []
  | c :: before, suffix =>
    if isPathSeparator c then []
    else if c = '.' then c :: suffix
    else extScan before (c :: suffix)

/-- The function `filepath.Ext`. -/
def Ext (path : String) : String := ⟨extScan path.data.reverse []⟩

/-- The function `unicode.ToLower` on one character: the ASCII capitals, and the two
non-ASCII characters whose lower case is an ASCII letter (U+0130 and the Kelvin sign
U+212A).  Every other non-ASCII character has a non-ASCII lower case and is left
as it is: the handler only compares the result with ASCII literals. -/
def toLowerRune (c : Char) : Char :=
  if 'A' ≤ c ∧ c ≤ 'Z' then Char.ofNat (c.toNat + 32)
  else if c = Char.ofNat 0x130 then 'i'
  else if c = Char.ofNat 0x212A then 'k'
  else c

/-- The function `strings.ToLower`. -/
def ToLower (s : String) : String := ⟨s.data.map toLowerRune⟩

/-- Components of a path between separators; the second argument is the component
being read, reversed. -/
def splitPath : List Char → List Char → List (List Char)
  | [], cur => [cur.reverse]
  | c :: cs, cur =>
    if isPathSeparator c then cur.reverse :: splitPath cs [] else splitPath cs (c :: cur)

/-- One step of `filepath.Clean` on a relative path: empty and `.` components are
dropped, `..` removes the component before it when there is one to remove. -/
def cleanStep (out : List (List Char)) (c : List Char) : List (List Char) :=
  if c = [] ∨ c = ['.'] then out
  else if c = ['.', '.'] then
    match out.getLast? with
    | some l => if l = ['.', '.'] then out ++ [c] else out.dropLast
    | none => out ++ [c]
  else out ++ [c]

/-- The function `filepath.Join` on two relative elements: they are joined by a
separator and the result is cleaned. -/
def filepathJoin (dir name : String) : String :=
  let comps := (splitPath (dir.data ++ '/' :: name.data) []).foldl cleanStep []
  match comps with
  | [] => "."
  | _ => ⟨List.intercalate ['/'] comps⟩

/-! ## Data model -/

/-- An entry of a ZIP archive: its name and its (uncompressed) bytes. -/
structure ZipEntry where
  name : String
  data : Bytes
deriving DecidableEq

/-- What a file on disk holds: plain bytes, or a ZIP container given by its entries
in order and by whether it has been finalized (central directory written). -/
inductive Content where
  | raw (bytes : Bytes)
  | zip (entries : List ZipEntry) (finalized : Bool)
deriving DecidableEq

/-- The filesystem: the content of the file at each path, if there is one. -/
abbrev FS := String → Option Content

/-- Creating or overwriting the file at `path`. -/
def FS.write (fs : FS) (path : String) (c : Content) : FS :=
  fun p => if p = path then some c else fs p

/-- Removing the file at `path`. -/
def FS.remove (fs : FS) (path : String) : FS :=
  fun p => if p = path then none else fs p

/-- A `multipart.FileHeader`: the name of an uploaded file and the bytes of the part. -/
structure FileHeader where
  Filename : String
  content : Bytes
deriving DecidableEq

/-- A parsed `multipart.Form`: the file parts under each field name. -/
structure MultipartForm where
  File : String → List FileHeader

/-- How `http.ServeFile` answers a request for an existing file, as its headers `Range`,
`If-Match`, `If-Unmodified-Since` and `If-None-Match` decide against the file served
(`If-Modified-Since` and `If-Range` are only looked at for GET and HEAD):
* `whole`: the whole file with status 200; a request with none of these headers;
* `preconditionFailed`: a conditional header does not hold, status 412, no body;
* `fragment start length`: one satisfiable range, status 206 with these bytes only;
* `fragments ranges`: several ranges, status 206 with a `multipart/byteranges` body;
* `notSatisfiable overlap`: a `Range` header that cannot be parsed, or (`overlap`
  false) that lies outside the file, status 416 with a text body. -/
inductive ServeMode where
  | whole
  | preconditionFailed
  | fragment (start length : Nat)
  | fragments (ranges : List (Nat × Nat))
  | notSatisfiable (overlap : Bool)
deriving DecidableEq

/-- An incoming request:
* its method;
* the error `r.ParseForm` finds in the URL query, if any;
* the size of its body in bytes, and how many of these bytes come after the closing
  boundary of the multipart form, which the multipart reader never reads;
* the form the multipart reader extracts from the body (`none` when the body is not a
  well-formed multipart form);
* the way its range and conditional headers make `http.ServeFile` answer. -/
structure Request where
  Method : String
  queryErr : Option String
  bodySize : Nat
  unread : Nat
  multipart : Option MultipartForm
  serve : ServeMode

/-- The form which the parsing of the request yields without error, the size limit
apart: the form in the body, unless the URL query is malformed (its error is what
`r.ParseMultipartForm` returns in the end). -/
def Request.form (r : Request) : Option MultipartForm :=
  match r.queryErr with
  | some _ => none
  | none => r.multipart

/-- Outcomes of the I/O operations whose error the upload handler inspects; `none`
is success, `some e` a failure with error text `e`.  Per-file operations are indexed
by the position of the file in the upload.  A failed copy also tells how many bytes
had been written. -/
structure Env where
  osCreateErr : Option String
  openErr : Nat → Option String
  zipCreateErr : Nat → Option String
  copyErr : Nat → Option (Nat × String)
  zipCloseErr : Option String

/-! ## The response writer (`net/http`) -/

/-- A piece of a response body: text, the whole content of a served file, the bytes
of one range of it, or several ranges of it as a `multipart/byteranges` body. -/
inductive Chunk where
  | text (s : String)
  | file (c : Content)
  | fragment (c : Content) (start length : Nat)
  | byteranges (c : Content) (ranges : List (Nat × Nat))
deriving DecidableEq

/-- The state of an `http.ResponseWriter`: the header map as it is sent (frozen once
the status line is written), the status once written, and the body written so far. -/
structure ResponseWriter where
  header : List (String × String)
  status : Option Nat
  body : List Chunk
deriving DecidableEq

/-- The writer handed to a handler: nothing set, nothing written. -/
def ResponseWriter.fresh : ResponseWriter := ⟨[], none, []⟩

/-- The call `w.Header().Set(key, value)`; without effect once the header is sent. -/
def ResponseWriter.Set (w : ResponseWriter) (key value : String) : ResponseWriter :=
  match w.status with
  | some _ => w
  | none => { w with header := (key, value) :: w.header.filter (fun e => e.1 ≠ key) }

/-- The call `w.Header().Del(key)`; without effect once the header is sent. -/
def ResponseWriter.Del (w : ResponseWriter) (key : String) : ResponseWriter :=
  match w.status with
  | some _ => w
  | none => { w with header := w.header.filter (fun e => e.1 ≠ key) }

/-- The call `w.WriteHeader(code)`; a second call is ignored. -/
def ResponseWriter.WriteHeader (w : ResponseWriter) (code : Nat) : ResponseWriter :=
  match w.status with
  | some _ => w
  | none => { w with status := some code }

/-- The call `w.Write(chunk)`; the first write sends status 200 if none was sent. -/
def ResponseWriter.Write (w : ResponseWriter) (c : Chunk) : ResponseWriter :=
  let w1 := w.WriteHeader 200
  { w1 with body := w1.body ++ [c] }

/-- The function `http.Error`: plain-text headers, the status code, and the message
followed by a newline as body. -/
def httpError (w : ResponseWriter) (msg : String) (code : Nat) : ResponseWriter :=
  let w1 := ((w.Del "Content-Length").Set "Content-Type" "text/plain; charset=utf-8").Set
    "X-Content-Type-Options" "nosniff"
  (w1.WriteHeader code).Write (Chunk.text (msg ++ "\n"))

/-- The function `serveContent` behind `http.ServeFile`, for a method other than GET
and HEAD: the preconditions of the request are checked (412 when one fails), then its
`Range` header is applied (416, or 206 with the bytes asked for); without such headers
the file is sent whole with status 200.  A `Content-Type` already set is kept, except
for several ranges.  The headers `Last-Modified`, `Accept-Ranges`, `Content-Range`
and `Content-Length` it adds are not recorded, nor the boundary of a multipart body. -/
def serveContent (w : ResponseWriter) (r : Request) (c : Content) : ResponseWriter :=
  match r.serve with
  | ServeMode.preconditionFailed => w.WriteHeader 412
  | ServeMode.notSatisfiable overlap =>
    httpError w (if overlap then "invalid range" else "invalid range: failed to overlap") 416
  | ServeMode.fragment start length =>
    (w.WriteHeader 206).Write (Chunk.fragment c start length)
  | ServeMode.fragments ranges =>
    ((w.Set "Content-Type" "multipart/byteranges").WriteHeader 206).Write
      (Chunk.byteranges c ranges)
  | ServeMode.whole => (w.WriteHeader 200).Write (Chunk.file c)

/-- The function `http.ServeFile` on a request whose URL path is `/upload` (the only
path the handler is registered for): a missing file gives 404, an existing one is
handed to `serveContent`. -/
def ServeFile (w : ResponseWriter) (r : Request) (fs : FS) (name : String) :
    ResponseWriter :=
  match fs name with
  | none => httpError w "404 page not found" 404
  | some c => serveContent w r c

/-- The constant `http.StatusOK`. -/
def StatusOK : Nat := 200

/-- The constant `http.StatusBadRequest`. -/
def StatusBadRequest : Nat := 400

/-- The constant `http.StatusMethodNotAllowed`. -/
def StatusMethodNotAllowed : Nat := 405

/-- The constant `http.StatusInternalServerError`. -/
def StatusInternalServerError : Nat := 500

/-! ## The index responder (lines 37-51) -/

/-- Outcomes of the template calls of the index responder: the error of
`template.ParseFiles` if it fails, the page a successful `Execute` writes, and for a
failing `Execute` the output it had written and its error. -/
structure TemplateEnv where
  parseErr : Option String
  page : String
  executeErr : Option (String × String)

/-- Lines 38-50: the handler returned by `indexHandler`.  The result is the response
writer and the records written to the server log. -/
def indexHandler (t : TemplateEnv) (w : ResponseWriter) : ResponseWriter × List String :=
  match t.parseErr with
  | some err =>
    (httpError w "Internal Server Error" StatusInternalServerError,
      ["Error parsing template: " ++ err])
  | none =>
    match t.executeErr with
    | some (out, err) =>
      let w1 := if out = "" then w else w.Write (Chunk.text out)
      (httpError w1 "Internal Server Error" StatusInternalServerError,
        ["Error executing template: " ++ err])
    | none => (w.Write (Chunk.text t.page), [])

/-! ## The upload handler (lines 53-121) -/

/-- Operations performed by the upload handler, in the order performed; `ok` tells
whether the operation succeeded (for `checkExt`: whether the extension is allowed).
The last four are the deferred calls. -/
inductive Op where
  | osCreate (path : String) (ok : Bool)
  | checkExt (i : Nat) (ok : Bool)
  | fileOpen (i : Nat) (ok : Bool)
  | zipCreate (i : Nat) (ok : Bool)
  | ioCopy (i : Nat) (ok : Bool)
  | zipClose (ok : Bool)
  | serveFile (path : String) (served : Option Content)
  | fileClose (i : Nat)
  | zipCloseDeferred
  | osRemove (path : String)
  | zipFileClose
deriving DecidableEq

/-- An operation whose error the handler inspects, and which failed. -/
def Op.isFailure : Op → Bool
  | Op.osCreate _ ok => !ok
  | Op.fileOpen _ ok => !ok
  | Op.zipCreate _ ok => !ok
  | Op.ioCopy _ ok => !ok
  | Op.zipClose ok => !ok
  | _ => false

/-- A `zip.Writer`: the entries written so far, whether `Close` has been called, and
whether the central directory has been written. -/
structure ZipWriter where
  entries : List ZipEntry
  closed : Bool
  finalized : Bool

/-- The call `zip.NewWriter(zipFile)`. -/
def ZipWriter.new : ZipWriter := ⟨[], false, false⟩

/-- The call `zipWriter.Create(name)`, when it succeeds: a new, empty entry. -/
def ZipWriter.Create (zw : ZipWriter) (name : String) : ZipWriter :=
  { zw with entries := zw.entries ++ [⟨name, []⟩] }

/-- Writing bytes to the entry returned by the last `Create`. -/
def ZipWriter.writeLast (zw : ZipWriter) (bytes : Bytes) : ZipWriter :=
  { zw with entries := zw.entries.dropLast ++
      (zw.entries.getLast?.map (fun e => { e with data := e.data ++ bytes })).toList }

/-- The call `zipWriter.Close()` with the outcome `err` of its writes: a second call
only reports an error; a successful first call writes the central directory. -/
def ZipWriter.Close (zw : ZipWriter) (err : Option String) : ZipWriter × Option String :=
  if zw.closed then (zw, some "zip: writer closed twice")
  else
    match err with
    | some e => ({ zw with closed := true }, some e)
    | none => ({ zw with closed := true, finalized := true }, none)

/-- What the archive file holds for a given state of the writer.  The buffering of the
writer is not modelled: the file is taken to hold what was written to the writer. -/
def ZipWriter.content (zw : ZipWriter) : Content := Content.zip zw.entries zw.finalized

/-- What a run of the upload handler leaves: the response, the filesystem, the
records written to the server log, and the operations performed. -/
structure Outcome where
  w : ResponseWriter
  fs : FS
  log : List String
  trace : List Op

/-- The state of the handler once the archive file exists: the outcome so far, the
ZIP writer, and the uploaded files opened (their deferred `Close`, last first). -/
structure Run where
  w : ResponseWriter
  fs : FS
  log : List String
  trace : List Op
  zw : ZipWriter
  opened : List Nat

/-- Line 73: `zipPath := filepath.Join(uploadPath, "archive.zip")`. -/
def zipPath : String := filepathJoin uploadPath "archive.zip"

/-- Lines 60-64: the body is wrapped by `http.MaxBytesReader` with the limit and read
by `r.ParseMultipartForm`.  The reader fails only on a read past the limit: the
multipart reader stops at the closing boundary, so what counts is the size of the
body without the bytes after that boundary.  A body which is not a well-formed
multipart form is an error, and the error of the URL query, kept aside at first, is
returned in the end. -/
def ParseMultipartForm (r : Request) (limit : Nat) : Except String MultipartForm :=
  if r.bodySize - r.unread > limit then Except.error "http: request body too large"
  else
    match r.multipart with
    | none => Except.error "multipart: malformed body"
    | some form =>
      match r.queryErr with
      | some e => Except.error e
      | none => Except.ok form

/-- Lines 85-110: the loop over the uploaded files, `i` being the position of the
first file of the list.  The second component tells whether the handler returned
from inside the loop. -/
def archiveLoop (env : Env) : List FileHeader → Nat → Run → Run × Bool
  | [], _, s => (s, false)
  | fileHeader :: rest, i, s =>
    let ext := ToLower (Ext fileHeader.Filename)
    if ext ≠ ".pdf" ∧ ext ≠ ".jpg" ∧ ext ≠ ".jpeg" then
      ({ s with
          w := httpError s.w "Only PDF and JPEG files are allowed" StatusBadRequest,
          trace := s.trace ++ [Op.checkExt i false] }, true)
    else
      match env.openErr i with
      | some _ =>
        ({ s with
            w := httpError s.w "Failed to open uploaded file" StatusInternalServerError,
            trace := s.trace ++ [Op.checkExt i true, Op.fileOpen i false] }, true)
      | none =>
        match env.zipCreateErr i with
        | some _ =>
          ({ s with
              w := httpError s.w "Failed to create ZIP entry" StatusInternalServerError,
              opened := i :: s.opened,
              trace := s.trace ++
                [Op.checkExt i true, Op.fileOpen i true, Op.zipCreate i false] }, true)
        | none =>
          match env.copyErr i with
          | some (n, _) =>
            let zw := (s.zw.Create fileHeader.Filename).writeLast (fileHeader.content.take n)
            ({ s with
                w := httpError s.w "Failed to write file to ZIP" StatusInternalServerError,
                fs := s.fs.write zipPath zw.content,
                zw := zw,
                opened := i :: s.opened,
                trace := s.trace ++ [Op.checkExt i true, Op.fileOpen i true,
                  Op.zipCreate i true, Op.ioCopy i false] }, true)
          | none =>
            let zw := (s.zw.Create fileHeader.Filename).writeLast fileHeader.content
            archiveLoop env rest (i + 1)
              { s with
                  fs := s.fs.write zipPath zw.content,
                  zw := zw,
                  opened := i :: s.opened,
                  trace := s.trace ++ [Op.checkExt i true, Op.fileOpen i true,
                    Op.zipCreate i true, Op.ioCopy i true] }

/-- Lines 85-119: the loop, then the explicit `zipWriter.Close()`, the two headers
and `http.ServeFile`. -/
def archiveAndServe (env : Env) (r : Request) (files : List FileHeader) (s : Run) : Run :=
  let looped := archiveLoop env files 0 s
  if looped.2 then looped.1
  else
    let s1 := looped.1
    let closed := s1.zw.Close env.zipCloseErr
    match closed.2 with
    | some _ =>
      { s1 with
          w := httpError s1.w "Failed to finalize ZIP archive" StatusInternalServerError,
          zw := closed.1,
          trace := s1.trace ++ [Op.zipClose false] }
    | none =>
      let fs1 := s1.fs.write zipPath closed.1.content
      let w1 := (s1.w.Set "Content-Type" "application/zip").Set
        "Content-Disposition" "attachment; filename=archive.zip"
      { s1 with
          w := ServeFile w1 r fs1 zipPath,
          fs := fs1,
          zw := closed.1,
          trace := s1.trace ++ [Op.zipClose true, Op.serveFile zipPath (fs1 zipPath)] }

/-- The deferred calls, run when the handler returns, last deferred first: the
`file.Close()` of each opened upload (line 97), `zipWriter.Close()` (line 83),
`os.Remove(zipPath)` (line 80) and `zipFile.Close()` (line 79). -/
def runDefers (env : Env) (s : Run) : Outcome :=
  let closed := s.zw.Close env.zipCloseErr
  let fs1 := s.fs.write zipPath closed.1.content
  { w := s.w,
    fs := fs1.remove zipPath,
    log := s.log,
    trace := s.trace ++ s.opened.map Op.fileClose ++
      [Op.zipCloseDeferred, Op.osRemove zipPath, Op.zipFileClose] }

/-- Lines 54-120: the handler returned by `uploadFileHandler`, run on the response
writer `w`, the request `r` and the filesystem `fs`. -/
def uploadFileHandler (env : Env) (w : ResponseWriter) (r : Request) (fs : FS) : Outcome :=
  if r.Method ≠ "POST" then
    ⟨httpError w "Method not allowed" StatusMethodNotAllowed, fs, [], []⟩
  else
    match ParseMultipartForm r maxUploadSize with
    | Except.error _ =>
      ⟨httpError w "Total files size too large (max 30MB)" StatusBadRequest, fs, [], []⟩
    | Except.ok form =>
      let files := form.File "files"
      if files.length ≠ maxFiles then
        ⟨httpError w ("Please upload exactly " ++ toString maxFiles ++ " files")
          StatusBadRequest, fs, [], []⟩
      else
        match env.osCreateErr with
        | some _ =>
          ⟨httpError w "Failed to create ZIP archive" StatusInternalServerError, fs, [],
            [Op.osCreate zipPath false]⟩
        | none =>
          runDefers env (archiveAndServe env r files
            { w := w,
              fs := fs.write zipPath (Content.raw []),
              log := [],
              trace := [Op.osCreate zipPath true],
              zw := ZipWriter.new,
              opened := [] })

/-- The response of a run on a fresh response writer. -/
def serveUpload (env : Env) (r : Request) (fs : FS) : Outcome :=
  uploadFileHandler env ResponseWriter.fresh r fs

/-! ## Notions used to state the properties -/

/-- The extension of `name` is, in lower case, one of `.pdf`, `.jpg`, `.jpeg`: the
negation of the test of line 87. -/
def extAllowed (name : String) : Prop :=
  ToLower (Ext name) = ".pdf" ∨ ToLower (Ext name) = ".jpg" ∨ ToLower (Ext name) = ".jpeg"

instance (name : String) : Decidable (extAllowed name) := by
  unfold extAllowed; infer_instance

/-- The suffix of a name starting at its last dot, empty when there is no dot. -/
def lastDotSuffix : List Char → List Char
  | [] => []
  | c :: cs =>
    if '.' ∈ cs then lastDotSuffix cs
    else if c = '.' then c :: cs
    else []

/-- The extension as worded in the specification: the suffix of the filename
starting at its last dot, empty when there is no dot. -/
def specExt (name : String) : String := ⟨lastDotSuffix name.data⟩

/-- The extension as worded in the specification is, compared case-insensitively,
one of `.pdf`, `.jpg`, `.jpeg`. -/
def specAllowed (name : String) : Prop :=
  ToLower (specExt name) = ".pdf" ∨ ToLower (specExt name) = ".jpg" ∨
    ToLower (specExt name) = ".jpeg"

instance (name : String) : Decidable (specAllowed name) := by
  unfold specAllowed; infer_instance

/-- The archive entry an uploaded file should give: same name, same bytes. -/
def toEntry (fh : FileHeader) : ZipEntry := ⟨fh.Filename, fh.content⟩

/-- No inspected operation fails on the archive or on the first `n` uploaded files. -/
def Env.noFailure (env : Env) (n : Nat) : Prop :=
  env.osCreateErr = none ∧ env.zipCloseErr = none ∧
    ∀ i, i < n → env.openErr i = none ∧ env.zipCreateErr i = none ∧ env.copyErr i = none

/-- No inspected operation fails on the first `n` uploaded files. -/
def Env.noFileFailure (env : Env) (n : Nat) : Prop :=
  ∀ i, i < n → env.openErr i = none ∧ env.zipCreateErr i = none ∧ env.copyErr i = none

/-- One of the three inspected operations on the uploaded file at position `i` fails. -/
def Env.failsAt (env : Env) (i : Nat) : Prop :=
  env.openErr i ≠ none ∨ env.zipCreateErr i ≠ none ∨ env.copyErr i ≠ none

/-- Two environments in which the same operations fail (a failed copy after the same
number of bytes), the error texts being free to differ. -/
def Env.sameFailures (env env2 : Env) : Prop :=
  env.osCreateErr.isSome = env2.osCreateErr.isSome ∧
  env.zipCloseErr.isSome = env2.zipCloseErr.isSome ∧
  ∀ i, (env.openErr i).isSome = (env2.openErr i).isSome ∧
    (env.zipCreateErr i).isSome = (env2.zipCreateErr i).isSome ∧
    (env.copyErr i).map Prod.fst = (env2.copyErr i).map Prod.fst

/-- The bodies of the five responses to an I/O failure (lines 76, 94, 102, 107, 113). -/
def genericBodies : List (List Chunk) :=
  [[Chunk.text "Failed to create ZIP archive\n"],
   [Chunk.text "Failed to open uploaded file\n"],
   [Chunk.text "Failed to create ZIP entry\n"],
   [Chunk.text "Failed to write file to ZIP\n"],
   [Chunk.text "Failed to finalize ZIP archive\n"]]

/-- The headers set by `http.Error`. -/
def plainTextHeader : List (String × String) :=
  [("X-Content-Type-Options", "nosniff"), ("Content-Type", "text/plain; charset=utf-8")]

/-- The response `http.Error` writes on a fresh writer. -/
def errorResponse (msg : String) (code : Nat) : ResponseWriter :=
  ⟨plainTextHeader, some code, [Chunk.text (msg ++ "\n")]⟩

/-- The writer on which `http.ServeFile` is called: the two headers of lines 117-118
set, nothing written. -/
def zipHeaderWriter : ResponseWriter :=
  (ResponseWriter.fresh.Set "Content-Type" "application/zip").Set
    "Content-Disposition" "attachment; filename=archive.zip"

/-- The success response carrying the archive `c`: lines 117-119. -/
def zipResponse (c : Content) : ResponseWriter :=
  ⟨[("Content-Disposition", "attachment; filename=archive.zip"),
    ("Content-Type", "application/zip")], some StatusOK, [Chunk.file c]⟩

/-! ## Concrete inputs used in the examples -/

/-- The environment in which no operation fails. -/
def Env.ok : Env := ⟨none, fun _ => none, fun _ => none, fun _ => none, none⟩

/-- The empty filesystem. -/
def FS.empty : FS := fun _ => none

/-- A form whose field `files` carries the given files. -/
def formOf (files : List FileHeader) : MultipartForm :=
  ⟨fun field => if field = "files" then files else []⟩

/-- A small well-formed request carrying the given files under `files`. -/
def requestOf (method : String) (files : List FileHeader) : Request :=
  ⟨method, none, 1024, 0, some (formOf files), ServeMode.whole⟩

/-- The upload `a.pdf`, `b.jpg`, `c.jpeg`. -/
def sampleFiles : List FileHeader :=
  [⟨"a.pdf", [1, 2]⟩, ⟨"b.jpg", [3]⟩, ⟨"c.jpeg", []⟩]

/-- The upload of two files only, `a.pdf` and `b.jpg`. -/
def twoFiles : List FileHeader :=
  [⟨"a.pdf", [1, 2]⟩, ⟨"b.jpg", [3]⟩]

/-- A request whose multipart form is one byte over the limit, carrying two files. -/
def oversizedRequest : Request :=
  ⟨"POST", none, maxUploadSize + 1, 0, some (formOf twoFiles), ServeMode.whole⟩

/-- A request whose body is one byte over the limit, the multipart form carrying the
given files ending one byte before the end of the body. -/
def paddedRequest (files : List FileHeader) : Request :=
  ⟨"POST", none, maxUploadSize + 1, 1, some (formOf files), ServeMode.whole⟩

/-- A small well-formed POST request carrying the given files and a `Range` header
asking for the first ten bytes. -/
def rangeRequest (files : List FileHeader) : Request :=
  ⟨"POST", none, 1024, 0, some (formOf files), ServeMode.fragment 0 10⟩

/-- A small well-formed POST request carrying the given files and an `If-Match` header
which does not hold. -/
def ifMatchRequest (files : List FileHeader) : Request :=
  ⟨"POST", none, 1024, 0, some (formOf files), ServeMode.preconditionFailed⟩

/-- A GET request whose body is one byte over the limit. -/
def oversizedGet : Request :=
  ⟨"GET", none, maxUploadSize + 1, 0, some (formOf twoFiles), ServeMode.whole⟩

/-- The upload of two files only, one of them `b.exe`. -/
def twoFilesExe : List FileHeader :=
  [⟨"a.pdf", [1, 2]⟩, ⟨"b.exe", [3]⟩]

/-- Template outcomes in which `template.ParseFiles` fails. -/
def TemplateEnv.parseFails : TemplateEnv :=
  ⟨some "open html/templates/index.html: no such file or directory", "", none⟩

/-- Template outcomes in which `Execute` fails before writing anything. -/
def TemplateEnv.executeFails : TemplateEnv :=
  ⟨none, "", some ("", "template: index.html: write error")⟩

/-- An environment in which `zipWriter.Close` fails. -/
def Env.closeFails : Env :=
  ⟨none, fun _ => none, fun _ => none, fun _ => none,
    some "write uploads/archive.zip: no space left on device"⟩

/-- An environment in which `os.Create` fails. -/
def Env.createFails : Env :=
  ⟨some "open uploads/archive.zip: permission denied", fun _ => none, fun _ => none,
    fun _ => none, none⟩

/-- An environment in which opening the first uploaded file fails. -/
def Env.openFails : Env :=
  ⟨none, fun i => if i = 0 then some "open: too many open files" else none, fun _ => none,
    fun _ => none, none⟩

/-- An environment in which copying the second uploaded file fails after one byte. -/
def Env.copyFails : Env :=
  ⟨none, fun _ => none, fun _ => none,
    fun i => if i = 1 then some (1, "write uploads/archive.zip: no space left on device")
      else none, none⟩

/-- The same failure as in `Env.copyFails`, reported with another error text. -/
def Env.copyFailsOther : Env :=
  ⟨none, fun _ => none, fun _ => none,
    fun i => if i = 1 then some (1, "write uploads/archive.zip: input/output error")
      else none, none⟩

/-- An environment in which creating the ZIP entry of the third uploaded file fails. -/
def Env.entryFails : Env :=
  ⟨none, fun _ => none, fun i => if i = 2 then some "zip: write error" else none,
    fun _ => none, none⟩

/-- A filesystem holding one other file and a stale archive. -/
def FS.sample : FS :=
  fun p => if p = "uploads/notes.txt" then some (Content.raw [7])
    else if p = "uploads/archive.zip" then some (Content.raw [9]) else none

/-- The upload `a.pdf`, `b.exe`, `c.jpeg`. -/
def exeFiles : List FileHeader :=
  [⟨"a.pdf", [1, 2]⟩, ⟨"b.exe", [3]⟩, ⟨"c.jpeg", []⟩]

/-! ## The response writer -/

theorem httpError_fresh (msg : String) (code : Nat) :
    httpError ResponseWriter.fresh msg code = errorResponse msg code := by
  rfl

/-! ## One pass of the loop -/

theorem archiveLoop_nil (env : Env) (i : Nat) (s : Run) :
    archiveLoop env [] i s = (s, false) := rfl

theorem allowed_iff_not_test (name : String) :
    extAllowed name ↔ ¬ (ToLower (Ext name) ≠ ".pdf" ∧ ToLower (Ext name) ≠ ".jpg" ∧
      ToLower (Ext name) ≠ ".jpeg") := by
  unfold extAllowed; tauto

theorem archiveLoop_disallowed (env : Env) (fh : FileHeader) (rest : List FileHeader)
    (i : Nat) (s : Run) (h : ¬ extAllowed fh.Filename) :
    archiveLoop env (fh :: rest) i s =
      ({ s with
          w := httpError s.w "Only PDF and JPEG files are allowed" StatusBadRequest,
          trace := s.trace ++ [Op.checkExt i false] }, true) := by
  rw [allowed_iff_not_test, not_not] at h
  simp only [archiveLoop, if_pos h]

theorem archiveLoop_openErr (env : Env) (fh : FileHeader) (rest : List FileHeader)
    (i : Nat) (s : Run) (h : extAllowed fh.Filename) (e : String)
    (ho : env.openErr i = some e) :
    archiveLoop env (fh :: rest) i s =
      ({ s with
          w := httpError s.w "Failed to open uploaded file" StatusInternalServerError,
          trace := s.trace ++ [Op.checkExt i true, Op.fileOpen i false] }, true) := by
  rw [allowed_iff_not_test] at h
  simp only [archiveLoop, if_neg h, ho]

theorem archiveLoop_zipCreateErr (env : Env) (fh : FileHeader) (rest : List FileHeader)
    (i : Nat) (s : Run) (h : extAllowed fh.Filename) (e : String)
    (ho : env.openErr i = none) (hc : env.zipCreateErr i = some e) :
    archiveLoop env (fh :: rest) i s =
      ({ s with
          w := httpError s.w "Failed to create ZIP entry" StatusInternalServerError,
          opened := i :: s.opened,
          trace := s.trace ++
            [Op.checkExt i true, Op.fileOpen i true, Op.zipCreate i false] }, true) := by
  rw [allowed_iff_not_test] at h
  simp only [archiveLoop, if_neg h, ho, hc]

theorem archiveLoop_copyErr (env : Env) (fh : FileHeader) (rest : List FileHeader)
    (i : Nat) (s : Run) (h : extAllowed fh.Filename) (n : Nat) (e : String)
    (ho : env.openErr i = none) (hc : env.zipCreateErr i = none)
    (hw : env.copyErr i = some (n, e)) :
    archiveLoop env (fh :: rest) i s =
      ({ s with
          w := httpError s.w "Failed to write file to ZIP" StatusInternalServerError,
          fs := s.fs.write zipPath
            ((s.zw.Create fh.Filename).writeLast (fh.content.take n)).content,
          zw := (s.zw.Create fh.Filename).writeLast (fh.content.take n),
          opened := i :: s.opened,
          trace := s.trace ++ [Op.checkExt i true, Op.fileOpen i true,
            Op.zipCreate i true, Op.ioCopy i false] }, true) := by
  rw [allowed_iff_not_test] at h
  simp only [archiveLoop, if_neg h, ho, hc, hw]

theorem archiveLoop_next (env : Env) (fh : FileHeader) (rest : List FileHeader)
    (i : Nat) (s : Run) (h : extAllowed fh.Filename)
    (ho : env.openErr i = none) (hc : env.zipCreateErr i = none)
    (hw : env.copyErr i = none) :
    archiveLoop env (fh :: rest) i s =
      archiveLoop env rest (i + 1)
        { s with
            fs := s.fs.write zipPath
              ((s.zw.Create fh.Filename).writeLast fh.content).content,
            zw := (s.zw.Create fh.Filename).writeLast fh.content,
            opened := i :: s.opened,
            trace := s.trace ++ [Op.checkExt i true, Op.fileOpen i true,
              Op.zipCreate i true, Op.ioCopy i true] } := by
  rw [allowed_iff_not_test] at h
  simp only [archiveLoop, if_neg h, ho, hc, hw]

theorem writeLast_Create (zw : ZipWriter) (name : String) (bytes : Bytes) :
    (zw.Create name).writeLast bytes =
      ⟨zw.entries ++ [⟨name, bytes⟩], zw.closed, zw.finalized⟩ := by
  simp [ZipWriter.Create, ZipWriter.writeLast]

theorem archiveLoop_log (env : Env) (files : List FileHeader) :
    ∀ (i : Nat) (s : Run), (archiveLoop env files i s).1.log = s.log := by
  induction files with
  | nil => intro i s; rfl
  | cons fh rest ih =>
    intro i s
    by_cases h : extAllowed fh.Filename
    · cases ho : env.openErr i with
      | some e => rw [archiveLoop_openErr env fh rest i s h e ho]
      | none =>
        cases hc : env.zipCreateErr i with
        | some e => rw [archiveLoop_zipCreateErr env fh rest i s h e ho hc]
        | none =>
          cases hw : env.copyErr i with
          | some ne =>
            obtain ⟨n, e⟩ := ne
            rw [archiveLoop_copyErr env fh rest i s h n e ho hc hw]
          | none => rw [archiveLoop_next env fh rest i s h ho hc hw, ih]
    · rw [archiveLoop_disallowed env fh rest i s h]

theorem archiveLoop_frame (env : Env) (files : List FileHeader) (p : String)
    (hp : p ≠ zipPath) :
    ∀ (i : Nat) (s : Run), (archiveLoop env files i s).1.fs p = s.fs p := by
  induction files with
  | nil => intro i s; rfl
  | cons fh rest ih =>
    intro i s
    by_cases h : extAllowed fh.Filename
    · cases ho : env.openErr i with
      | some e => rw [archiveLoop_openErr env fh rest i s h e ho]
      | none =>
        cases hc : env.zipCreateErr i with
        | some e => rw [archiveLoop_zipCreateErr env fh rest i s h e ho hc]
        | none =>
          cases hw : env.copyErr i with
          | some ne =>
            obtain ⟨n, e⟩ := ne
            rw [archiveLoop_copyErr env fh rest i s h n e ho hc hw]
            simp [FS.write, hp]
          | none =>
            rw [archiveLoop_next env fh rest i s h ho hc hw, ih]
            simp [FS.write, hp]
    · rw [archiveLoop_disallowed env fh rest i s h]

/-- When the loop runs to its end: every file was allowed, nothing was written to the
response, the writer holds one entry per file, in order, and no operation failed. -/
theorem archiveLoop_false (env : Env) (files : List FileHeader) :
    ∀ (i : Nat) (s : Run), (archiveLoop env files i s).2 = false →
      (∀ fh ∈ files, extAllowed fh.Filename) ∧
      (archiveLoop env files i s).1.w = s.w ∧
      (archiveLoop env files i s).1.zw =
        ⟨s.zw.entries ++ files.map toEntry, s.zw.closed, s.zw.finalized⟩ ∧
      ((∀ op ∈ s.trace, op.isFailure = false) →
        ∀ op ∈ (archiveLoop env files i s).1.trace, op.isFailure = false) := by
  induction files with
  | nil => intro i s _; simp [archiveLoop]
  | cons fh rest ih =>
    intro i s
    by_cases h : extAllowed fh.Filename
    · cases ho : env.openErr i with
      | some e => rw [archiveLoop_openErr env fh rest i s h e ho]; simp
      | none =>
        cases hc : env.zipCreateErr i with
        | some e => rw [archiveLoop_zipCreateErr env fh rest i s h e ho hc]; simp
        | none =>
          cases hw : env.copyErr i with
          | some ne =>
            obtain ⟨n, e⟩ := ne
            rw [archiveLoop_copyErr env fh rest i s h n e ho hc hw]; simp
          | none =>
            rw [archiveLoop_next env fh rest i s h ho hc hw]
            intro hret
            obtain ⟨h1, h2, h3, h4⟩ := ih _ _ hret
            refine ⟨?_, ?_, ?_, ?_⟩
            · intro f hf
              rcases List.mem_cons.mp hf with rfl | hf
              · exact h
              · exact h1 f hf
            · rw [h2]
            · rw [h3, writeLast_Create]; simp [toEntry]
            · intro hs
              apply h4
              intro op hop
              simp only [List.mem_append, List.mem_cons, List.mem_singleton,
                List.not_mem_nil, or_false] at hop
              rcases hop with hop | rfl | rfl | rfl | rfl
              · exact hs op hop
              all_goals rfl
    · rw [archiveLoop_disallowed env fh rest i s h]; simp

/-- When the handler returns from inside the loop: either a file was disallowed, the
response is the 400 of line 88 and no operation failed, or an operation on one of the
files failed and the response is one of the three 500 of lines 94, 102 and 107. -/
theorem archiveLoop_true (env : Env) (files : List FileHeader) :
    ∀ (i : Nat) (s : Run), (archiveLoop env files i s).2 = true →
      ((∃ fh ∈ files, ¬ extAllowed fh.Filename) ∧
        (archiveLoop env files i s).1.w =
          httpError s.w "Only PDF and JPEG files are allowed" StatusBadRequest ∧
        ((∀ op ∈ s.trace, op.isFailure = false) →
          ∀ op ∈ (archiveLoop env files i s).1.trace, op.isFailure = false)) ∨
      ((∃ msg ∈ ["Failed to open uploaded file", "Failed to create ZIP entry",
            "Failed to write file to ZIP"],
          (archiveLoop env files i s).1.w =
            httpError s.w msg StatusInternalServerError) ∧
        (∃ op ∈ (archiveLoop env files i s).1.trace, op.isFailure = true) ∧
        ∃ k, k < files.length ∧ env.failsAt (i + k)) := by
  induction files with
  | nil => intro i s h; simp [archiveLoop] at h
  | cons fh rest ih =>
    intro i s
    by_cases h : extAllowed fh.Filename
    · cases ho : env.openErr i with
      | some e =>
        rw [archiveLoop_openErr env fh rest i s h e ho]
        intro _
        exact Or.inr ⟨⟨_, by simp, rfl⟩, ⟨Op.fileOpen i false, by simp, rfl⟩,
          0, by simp, Or.inl (by simp [ho])⟩
      | none =>
        cases hc : env.zipCreateErr i with
        | some e =>
          rw [archiveLoop_zipCreateErr env fh rest i s h e ho hc]
          intro _
          exact Or.inr ⟨⟨_, by simp, rfl⟩, ⟨Op.zipCreate i false, by simp, rfl⟩,
            0, by simp, Or.inr (Or.inl (by simp [hc]))⟩
        | none =>
          cases hw : env.copyErr i with
          | some ne =>
            obtain ⟨n, e⟩ := ne
            rw [archiveLoop_copyErr env fh rest i s h n e ho hc hw]
            intro _
            exact Or.inr ⟨⟨_, by simp, rfl⟩, ⟨Op.ioCopy i false, by simp, rfl⟩,
              0, by simp, Or.inr (Or.inr (by simp [hw]))⟩
          | none =>
            rw [archiveLoop_next env fh rest i s h ho hc hw]
            intro hret
            rcases ih _ _ hret with ⟨⟨f, hf, hbad⟩, hw2, htr⟩ |
              ⟨⟨msg, hmsg, hw2⟩, hop, k, hk, hfail⟩
            · refine Or.inl ⟨⟨f, List.mem_cons_of_mem _ hf, hbad⟩, hw2, ?_⟩
              intro hs
              apply htr
              intro op hop
              simp only [List.mem_append, List.mem_cons, List.mem_singleton,
                List.not_mem_nil, or_false] at hop
              rcases hop with hop | rfl | rfl | rfl | rfl
              · exact hs op hop
              all_goals rfl
            · refine Or.inr ⟨⟨msg, hmsg, hw2⟩, hop, k + 1, by simpa using hk, ?_⟩
              rwa [show i + (k + 1) = i + 1 + k by omega]
    · rw [archiveLoop_disallowed env fh rest i s h]
      intro _
      refine Or.inl ⟨⟨fh, List.mem_cons_self _ _, h⟩, rfl, ?_⟩
      intro hs op hop
      simp only [List.mem_append, List.mem_singleton] at hop
      rcases hop with hop | rfl
      · exact hs op hop
      · rfl

/-- With allowed files and no failing operation the loop runs to its end. -/
theorem archiveLoop_ok (env : Env) (files : List FileHeader) :
    ∀ (i : Nat) (s : Run), (∀ fh ∈ files, extAllowed fh.Filename) →
      (∀ k, k < files.length → env.openErr (i + k) = none ∧
        env.zipCreateErr (i + k) = none ∧ env.copyErr (i + k) = none) →
      (archiveLoop env files i s).2 = false := by
  induction files with
  | nil => intro i s _ _; rfl
  | cons fh rest ih =>
    intro i s hall henv
    obtain ⟨ho, hc, hw⟩ := henv 0 (by simp)
    rw [archiveLoop_next env fh rest i s (hall fh (List.mem_cons_self _ _)) ho hc hw]
    apply ih
    · intro f hf
      exact hall f (List.mem_cons_of_mem _ hf)
    · intro k hk
      have := henv (k + 1) (by simpa using hk)
      rwa [show i + (k + 1) = i + 1 + k by omega] at this

/-- A disallowed file reached without a failing operation stops the loop with the 400
response of line 88, whatever comes after it. -/
theorem archiveLoop_reject (env : Env) (pre : List FileHeader) (bad : FileHeader)
    (post : List FileHeader) (hbad : ¬ extAllowed bad.Filename) :
    ∀ (i : Nat) (s : Run), (∀ fh ∈ pre, extAllowed fh.Filename) →
      (∀ k, k < pre.length → env.openErr (i + k) = none ∧
        env.zipCreateErr (i + k) = none ∧ env.copyErr (i + k) = none) →
      (archiveLoop env (pre ++ bad :: post) i s).2 = true ∧
      (archiveLoop env (pre ++ bad :: post) i s).1.w =
        httpError s.w "Only PDF and JPEG files are allowed" StatusBadRequest := by
  induction pre with
  | nil =>
    intro i s _ _
    rw [List.nil_append, archiveLoop_disallowed env bad post i s hbad]
    exact ⟨rfl, rfl⟩
  | cons fh rest ih =>
    intro i s hall henv
    obtain ⟨ho, hc, hw⟩ := henv 0 (by simp)
    rw [List.cons_append,
      archiveLoop_next env fh _ i s (hall fh (List.mem_cons_self _ _)) ho hc hw]
    apply ih
    · intro f hf
      exact hall f (List.mem_cons_of_mem _ hf)
    · intro k hk
      have := henv (k + 1) (by simpa using hk)
      rwa [show i + (k + 1) = i + 1 + k by omega] at this

/-- The loop does not look at the error texts. -/
theorem archiveLoop_sameFailures (env env2 : Env) (hsame : env.sameFailures env2)
    (files : List FileHeader) :
    ∀ (i : Nat) (s : Run), archiveLoop env files i s = archiveLoop env2 files i s := by
  induction files with
  | nil => intro i s; rfl
  | cons fh rest ih =>
    intro i s
    obtain ⟨-, -, hfile⟩ := hsame
    obtain ⟨h1, h2, h3⟩ := hfile i
    by_cases h : extAllowed fh.Filename
    · cases ho : env.openErr i with
      | some e =>
        cases ho2 : env2.openErr i with
        | none => simp [ho, ho2] at h1
        | some e2 =>
          rw [archiveLoop_openErr env fh rest i s h e ho,
            archiveLoop_openErr env2 fh rest i s h e2 ho2]
      | none =>
        cases ho2 : env2.openErr i with
        | some e2 => simp [ho, ho2] at h1
        | none =>
          cases hc : env.zipCreateErr i with
          | some e =>
            cases hc2 : env2.zipCreateErr i with
            | none => simp [hc, hc2] at h2
            | some e2 =>
              rw [archiveLoop_zipCreateErr env fh rest i s h e ho hc,
                archiveLoop_zipCreateErr env2 fh rest i s h e2 ho2 hc2]
          | none =>
            cases hc2 : env2.zipCreateErr i with
            | some e2 => simp [hc, hc2] at h2
            | none =>
              cases hw : env.copyErr i with
              | some ne =>
                obtain ⟨n, e⟩ := ne
                cases hw2 : env2.copyErr i with
                | none => simp [hw, hw2] at h3
                | some ne2 =>
                  obtain ⟨n2, e2⟩ := ne2
                  have hn : n = n2 := by simpa [hw, hw2] using h3
                  subst hn
                  rw [archiveLoop_copyErr env fh rest i s h n e ho hc hw,
                    archiveLoop_copyErr env2 fh rest i s h n e2 ho2 hc2 hw2]
              | none =>
                cases hw2 : env2.copyErr i with
                | some ne2 => simp [hw, hw2] at h3
                | none =>
                  rw [archiveLoop_next env fh rest i s h ho hc hw,
                    archiveLoop_next env2 fh rest i s h ho2 hc2 hw2, ih]
    · rw [archiveLoop_disallowed env fh rest i s h,
        archiveLoop_disallowed env2 fh rest i s h]

/-! ## The handler, path by path -/

theorem parse_ok_iff (r : Request) (form : MultipartForm) :
    ParseMultipartForm r maxUploadSize = Except.ok form ↔
      r.bodySize - r.unread ≤ maxUploadSize ∧ r.form = some form := by
  unfold ParseMultipartForm Request.form
  by_cases hsize : r.bodySize - r.unread > maxUploadSize
  · simp only [hsize, if_true]
    constructor
    · intro h; cases h
    · intro h; exact absurd h.1 (Nat.not_le_of_gt hsize)
  · cases hf : r.multipart with
    | none => cases hq : r.queryErr <;> simp [hsize]
    | some f => cases hq : r.queryErr <;> simp [hsize, Nat.le_of_not_gt hsize]

theorem parse_error (r : Request)
    (hbad : r.bodySize - r.unread > maxUploadSize ∨ r.form = none) :
    ∃ e, ParseMultipartForm r maxUploadSize = Except.error e := by
  cases hp : ParseMultipartForm r maxUploadSize with
  | error e => exact ⟨e, rfl⟩
  | ok form =>
    obtain ⟨h1, h2⟩ := (parse_ok_iff r form).mp hp
    rcases hbad with h | h
    · exact absurd h1 (Nat.not_le_of_gt h)
    · rw [h] at h2; simp at h2

theorem upload_notPost (env : Env) (w : ResponseWriter) (r : Request) (fs : FS)
    (hm : r.Method ≠ "POST") :
    uploadFileHandler env w r fs =
      ⟨httpError w "Method not allowed" StatusMethodNotAllowed, fs, [], []⟩ := by
  simp only [uploadFileHandler, if_pos hm]

theorem upload_parseErr (env : Env) (w : ResponseWriter) (r : Request) (fs : FS)
    (hm : r.Method = "POST")
    (hbad : r.bodySize - r.unread > maxUploadSize ∨ r.form = none) :
    uploadFileHandler env w r fs =
      ⟨httpError w "Total files size too large (max 30MB)" StatusBadRequest, fs, [], []⟩ := by
  obtain ⟨e, he⟩ := parse_error r hbad
  simp only [uploadFileHandler, hm, ne_eq, not_true_eq_false, if_false, he]

theorem upload_wrongCount (env : Env) (w : ResponseWriter) (r : Request) (fs : FS)
    (form : MultipartForm) (hm : r.Method = "POST") (hsize : r.bodySize - r.unread ≤ maxUploadSize)
    (hform : r.form = some form) (hn : (form.File "files").length ≠ maxFiles) :
    uploadFileHandler env w r fs =
      ⟨httpError w "Please upload exactly 3 files" StatusBadRequest, fs, [], []⟩ := by
  have hp := (parse_ok_iff r form).mpr ⟨hsize, hform⟩
  simp only [uploadFileHandler, hm, ne_eq, not_true_eq_false, if_false, hp, hn,
    not_false_eq_true, if_true]
  rfl

theorem upload_createErr (env : Env) (w : ResponseWriter) (r : Request) (fs : FS)
    (form : MultipartForm) (e : String) (hm : r.Method = "POST")
    (hsize : r.bodySize - r.unread ≤ maxUploadSize) (hform : r.form = some form)
    (hn : (form.File "files").length = maxFiles) (hc : env.osCreateErr = some e) :
    uploadFileHandler env w r fs =
      ⟨httpError w "Failed to create ZIP archive" StatusInternalServerError, fs, [],
        [Op.osCreate zipPath false]⟩ := by
  have hp := (parse_ok_iff r form).mpr ⟨hsize, hform⟩
  simp only [uploadFileHandler, hm, ne_eq, not_true_eq_false, if_false, hp, hn, hc]

theorem upload_run (env : Env) (w : ResponseWriter) (r : Request) (fs : FS)
    (form : MultipartForm) (hm : r.Method = "POST")
    (hsize : r.bodySize - r.unread ≤ maxUploadSize) (hform : r.form = some form)
    (hn : (form.File "files").length = maxFiles) (hc : env.osCreateErr = none) :
    uploadFileHandler env w r fs =
      runDefers env (archiveAndServe env r (form.File "files")
        { w := w,
          fs := fs.write zipPath (Content.raw []),
          log := [],
          trace := [Op.osCreate zipPath true],
          zw := ZipWriter.new,
          opened := [] }) := by
  have hp := (parse_ok_iff r form).mpr ⟨hsize, hform⟩
  simp only [uploadFileHandler, hm, ne_eq, not_true_eq_false, if_false, hp, hn, hc]

theorem serveFile_written (w : ResponseWriter) (r : Request) (fs : FS) (c : Content) :
    ServeFile w r (fs.write zipPath c) zipPath = serveContent w r c := by
  simp [ServeFile, FS.write]

theorem serveContent_whole (r : Request) (c : Content) (h : r.serve = ServeMode.whole) :
    serveContent zipHeaderWriter r c = zipResponse c := by
  unfold serveContent
  rw [h]
  rfl

/-- The bodies `http.ServeFile` can write: nothing, one of two texts about the range,
the whole file on a plain request, or one or several ranges of it. -/
theorem serveContent_body (r : Request) (c : Content) :
    (r.serve = ServeMode.whole ∧ serveContent zipHeaderWriter r c = zipResponse c) ∨
    (r.serve ≠ ServeMode.whole ∧
      ((serveContent zipHeaderWriter r c).status = some 412 ∨
        (serveContent zipHeaderWriter r c).status = some 416 ∨
        (serveContent zipHeaderWriter r c).status = some 206) ∧
      ((serveContent zipHeaderWriter r c).body = [] ∨
        (serveContent zipHeaderWriter r c).body = [Chunk.text "invalid range\n"] ∨
        (serveContent zipHeaderWriter r c).body =
          [Chunk.text "invalid range: failed to overlap\n"] ∨
        (∃ start length,
          (serveContent zipHeaderWriter r c).body = [Chunk.fragment c start length]) ∨
        (∃ ranges,
          (serveContent zipHeaderWriter r c).body = [Chunk.byteranges c ranges]))) := by
  cases h : r.serve with
  | whole => exact Or.inl ⟨rfl, serveContent_whole r c h⟩
  | preconditionFailed =>
    refine Or.inr ⟨by simp, Or.inl ?_, Or.inl ?_⟩ <;> (unfold serveContent; rw [h]; rfl)
  | fragment start length =>
    refine Or.inr ⟨by simp, Or.inr (Or.inr ?_), Or.inr (Or.inr (Or.inr (Or.inl
      ⟨start, length, ?_⟩)))⟩ <;> (unfold serveContent; rw [h]; rfl)
  | fragments ranges =>
    refine Or.inr ⟨by simp, Or.inr (Or.inr ?_), Or.inr (Or.inr (Or.inr (Or.inr
      ⟨ranges, ?_⟩)))⟩ <;> (unfold serveContent; rw [h]; rfl)
  | notSatisfiable overlap =>
    cases overlap with
    | true =>
      refine Or.inr ⟨by simp, Or.inr (Or.inl ?_), Or.inr (Or.inl ?_)⟩ <;>
        (unfold serveContent; rw [h]; rfl)
    | false =>
      refine Or.inr ⟨by simp, Or.inr (Or.inl ?_), Or.inr (Or.inr (Or.inl ?_))⟩ <;>
        (unfold serveContent; rw [h]; rfl)

theorem archiveAndServe_returned (env : Env) (r : Request) (files : List FileHeader) (s : Run)
    (hret : (archiveLoop env files 0 s).2 = true) :
    archiveAndServe env r files s = (archiveLoop env files 0 s).1 := by
  unfold archiveAndServe; simp only [hret, if_true]

theorem archiveAndServe_closeErr (env : Env) (r : Request) (files : List FileHeader) (s : Run) (e : String)
    (hret : (archiveLoop env files 0 s).2 = false)
    (hclose : ((archiveLoop env files 0 s).1.zw.Close env.zipCloseErr).2 = some e) :
    archiveAndServe env r files s =
      { (archiveLoop env files 0 s).1 with
          w := httpError (archiveLoop env files 0 s).1.w "Failed to finalize ZIP archive"
            StatusInternalServerError,
          zw := ((archiveLoop env files 0 s).1.zw.Close env.zipCloseErr).1,
          trace := (archiveLoop env files 0 s).1.trace ++ [Op.zipClose false] } := by
  unfold archiveAndServe; simp only [hret, hclose, Bool.false_eq_true, if_false]

theorem archiveAndServe_served (env : Env) (r : Request) (files : List FileHeader) (s : Run)
    (hret : (archiveLoop env files 0 s).2 = false)
    (hclose : ((archiveLoop env files 0 s).1.zw.Close env.zipCloseErr).2 = none) :
    archiveAndServe env r files s =
      { (archiveLoop env files 0 s).1 with
          w := ServeFile
            (((archiveLoop env files 0 s).1.w.Set "Content-Type" "application/zip").Set
              "Content-Disposition" "attachment; filename=archive.zip") r
            ((archiveLoop env files 0 s).1.fs.write zipPath
              ((archiveLoop env files 0 s).1.zw.Close env.zipCloseErr).1.content) zipPath,
          fs := (archiveLoop env files 0 s).1.fs.write zipPath
            ((archiveLoop env files 0 s).1.zw.Close env.zipCloseErr).1.content,
          zw := ((archiveLoop env files 0 s).1.zw.Close env.zipCloseErr).1,
          trace := (archiveLoop env files 0 s).1.trace ++
            [Op.zipClose true, Op.serveFile zipPath
              (((archiveLoop env files 0 s).1.fs.write zipPath
                ((archiveLoop env files 0 s).1.zw.Close env.zipCloseErr).1.content)
                zipPath)] } := by
  unfold archiveAndServe; simp only [hret, hclose, Bool.false_eq_true, if_false]

theorem archiveAndServe_log (env : Env) (r : Request) (files : List FileHeader) (s : Run) :
    (archiveAndServe env r files s).log = s.log := by
  cases hret : (archiveLoop env files 0 s).2 with
  | true => rw [archiveAndServe_returned env r files s hret]; exact archiveLoop_log env files 0 s
  | false =>
    cases hclose : ((archiveLoop env files 0 s).1.zw.Close env.zipCloseErr).2 with
    | some e =>
      rw [archiveAndServe_closeErr env r files s e hret hclose]
      exact archiveLoop_log env files 0 s
    | none =>
      rw [archiveAndServe_served env r files s hret hclose]
      exact archiveLoop_log env files 0 s

theorem archiveAndServe_frame (env : Env) (r : Request) (files : List FileHeader) (s : Run)
    (p : String) (hp : p ≠ zipPath) :
    (archiveAndServe env r files s).fs p = s.fs p := by
  cases hret : (archiveLoop env files 0 s).2 with
  | true =>
    rw [archiveAndServe_returned env r files s hret]
    exact archiveLoop_frame env files p hp 0 s
  | false =>
    cases hclose : ((archiveLoop env files 0 s).1.zw.Close env.zipCloseErr).2 with
    | some e =>
      rw [archiveAndServe_closeErr env r files s e hret hclose]
      exact archiveLoop_frame env files p hp 0 s
    | none =>
      rw [archiveAndServe_served env r files s hret hclose]
      simp only [FS.write, hp, if_false]
      exact archiveLoop_frame env files p hp 0 s

/-- The three ways the body of the handler ends once the archive file exists: a
disallowed file (400), a failed operation (500), or the archive served (200). -/
theorem archiveAndServe_cases (env : Env) (r : Request) (files : List FileHeader) (s : Run)
    (hw : s.w = ResponseWriter.fresh) (hz : s.zw = ZipWriter.new)
    (hs : ∀ op ∈ s.trace, op.isFailure = false) :
    ((∃ fh ∈ files, ¬ extAllowed fh.Filename) ∧
      (archiveAndServe env r files s).w =
        errorResponse "Only PDF and JPEG files are allowed" StatusBadRequest ∧
      ∀ op ∈ (archiveAndServe env r files s).trace, op.isFailure = false) ∨
    ((∃ msg ∈ ["Failed to open uploaded file", "Failed to create ZIP entry",
          "Failed to write file to ZIP", "Failed to finalize ZIP archive"],
        (archiveAndServe env r files s).w = errorResponse msg StatusInternalServerError) ∧
      (∃ op ∈ (archiveAndServe env r files s).trace, op.isFailure = true) ∧
      ((∃ k, k < files.length ∧ env.failsAt k) ∨ env.zipCloseErr ≠ none)) ∨
    ((∀ fh ∈ files, extAllowed fh.Filename) ∧
      (archiveAndServe env r files s).w =
        serveContent zipHeaderWriter r (Content.zip (files.map toEntry) true) ∧
      Op.serveFile zipPath (some (Content.zip (files.map toEntry) true)) ∈
        (archiveAndServe env r files s).trace ∧
      (∀ op ∈ (archiveAndServe env r files s).trace, op.isFailure = false) ∧
      env.zipCloseErr = none) := by
  by_cases hret : (archiveLoop env files 0 s).2 = true
  · have hrun : archiveAndServe env r files s = (archiveLoop env files 0 s).1 := by
      unfold archiveAndServe; simp only [hret, if_true]
    rw [hrun]
    rcases archiveLoop_true env files 0 s hret with ⟨hbad, hw2, htr⟩ |
      ⟨⟨msg, hmsg, hw2⟩, hop, k, hk, hfail⟩
    · refine Or.inl ⟨hbad, ?_, htr hs⟩
      rw [hw2, hw, httpError_fresh]
    · refine Or.inr (Or.inl ⟨⟨msg, ?_, ?_⟩, hop, Or.inl ⟨k, hk, by simpa using hfail⟩⟩)
      · simp only [List.mem_cons, List.mem_singleton, List.not_mem_nil, or_false] at hmsg ⊢
        tauto
      · rw [hw2, hw, httpError_fresh]
  · have hret2 : (archiveLoop env files 0 s).2 = false := by simpa using hret
    obtain ⟨hall, hw2, hzw, htr⟩ := archiveLoop_false env files 0 s hret2
    have hzw2 : (archiveLoop env files 0 s).1.zw = ⟨files.map toEntry, false, false⟩ := by
      rw [hzw, hz]; simp [ZipWriter.new]
    cases hclose : env.zipCloseErr with
    | some e =>
      have hc2 : ((archiveLoop env files 0 s).1.zw.Close env.zipCloseErr).2 = some e := by
        rw [hzw2, hclose]; rfl
      rw [archiveAndServe_closeErr env r files s e hret2 hc2]
      refine Or.inr (Or.inl ⟨⟨"Failed to finalize ZIP archive", by simp, ?_⟩,
        ⟨Op.zipClose false, by simp, rfl⟩, Or.inr (by simp [hclose])⟩)
      show httpError (archiveLoop env files 0 s).1.w _ _ = _
      rw [hw2, hw, httpError_fresh]
    | none =>
      have hc2 : ((archiveLoop env files 0 s).1.zw.Close env.zipCloseErr).2 = none := by
        rw [hzw2, hclose]; rfl
      have hc1 : ((archiveLoop env files 0 s).1.zw.Close env.zipCloseErr).1.content =
          Content.zip (files.map toEntry) true := by
        rw [hzw2, hclose]; rfl
      rw [archiveAndServe_served env r files s hret2 hc2]
      refine Or.inr (Or.inr ⟨hall, ?_, ?_, ?_, rfl⟩)
      · dsimp only
        rw [serveFile_written, hw2, hw, hc1]
        rfl
      · dsimp only
        rw [hc1]
        simp [FS.write]
      · intro op hop
        simp only [List.mem_append, List.mem_cons, List.mem_singleton,
          List.not_mem_nil, or_false] at hop
        rcases hop with hop | rfl | rfl
        · exact htr hs op hop
        all_goals rfl

theorem runDefers_w (env : Env) (s : Run) : (runDefers env s).w = s.w := rfl

theorem runDefers_log (env : Env) (s : Run) : (runDefers env s).log = s.log := rfl

theorem runDefers_removed (env : Env) (s : Run) : (runDefers env s).fs zipPath = none := by
  simp [runDefers, FS.remove]

theorem runDefers_frame (env : Env) (s : Run) (p : String) (hp : p ≠ zipPath) :
    (runDefers env s).fs p = s.fs p := by
  simp [runDefers, FS.remove, FS.write, hp]

theorem runDefers_failed (env : Env) (s : Run) (op : Op) (hf : op.isFailure = true) :
    op ∈ (runDefers env s).trace ↔ op ∈ s.trace := by
  simp only [runDefers, List.mem_append, List.mem_map, List.mem_cons, List.mem_singleton,
    List.not_mem_nil, or_false]
  constructor
  · rintro ((h | ⟨i, -, rfl⟩) | rfl | rfl | rfl)
    · exact h
    all_goals simp [Op.isFailure] at hf
  · intro h; exact Or.inl (Or.inl h)

theorem archiveLoop_trace_mono (env : Env) (files : List FileHeader) (op : Op) :
    ∀ (i : Nat) (s : Run), op ∈ s.trace → op ∈ (archiveLoop env files i s).1.trace := by
  induction files with
  | nil => intro i s h; exact h
  | cons fh rest ih =>
    intro i s hop
    by_cases h : extAllowed fh.Filename
    · cases ho : env.openErr i with
      | some e =>
        rw [archiveLoop_openErr env fh rest i s h e ho]
        exact List.mem_append_left _ hop
      | none =>
        cases hc : env.zipCreateErr i with
        | some e =>
          rw [archiveLoop_zipCreateErr env fh rest i s h e ho hc]
          exact List.mem_append_left _ hop
        | none =>
          cases hw : env.copyErr i with
          | some ne =>
            obtain ⟨n, e⟩ := ne
            rw [archiveLoop_copyErr env fh rest i s h n e ho hc hw]
            exact List.mem_append_left _ hop
          | none =>
            rw [archiveLoop_next env fh rest i s h ho hc hw]
            exact ih _ _ (List.mem_append_left _ hop)
    · rw [archiveLoop_disallowed env fh rest i s h]
      exact List.mem_append_left _ hop

theorem archiveAndServe_trace_mono (env : Env) (r : Request) (files : List FileHeader) (s : Run) (op : Op)
    (hop : op ∈ s.trace) : op ∈ (archiveAndServe env r files s).trace := by
  have hloop := archiveLoop_trace_mono env files op 0 s hop
  cases hret : (archiveLoop env files 0 s).2 with
  | true => rw [archiveAndServe_returned env r files s hret]; exact hloop
  | false =>
    cases hclose : ((archiveLoop env files 0 s).1.zw.Close env.zipCloseErr).2 with
    | some e =>
      rw [archiveAndServe_closeErr env r files s e hret hclose]
      exact List.mem_append_left _ hloop
    | none =>
      rw [archiveAndServe_served env r files s hret hclose]
      exact List.mem_append_left _ hloop

theorem runDefers_noFail (env : Env) (s : Run)
    (hs : ∀ op ∈ s.trace, op.isFailure = false) :
    ∀ op ∈ (runDefers env s).trace, op.isFailure = false := by
  intro op hop
  cases hf : op.isFailure with
  | false => rfl
  | true =>
    have := hs op ((runDefers_failed env s op hf).mp hop)
    rw [hf] at this
    exact this

/-- What a run leaves when the archive file was created (line 74 succeeded): nothing in
the log, no file at the archive path, every other file as before, and one of three
responses: the 400 for a disallowed file, a 500 for a failed operation, or the archive. -/
theorem upload_created (env : Env) (r : Request) (fs : FS) (form : MultipartForm)
    (hm : r.Method = "POST") (hsize : r.bodySize - r.unread ≤ maxUploadSize)
    (hform : r.form = some form) (hn : (form.File "files").length = maxFiles)
    (hc : env.osCreateErr = none) :
    (serveUpload env r fs).log = [] ∧
    (serveUpload env r fs).fs zipPath = none ∧
    (∀ p, p ≠ zipPath → (serveUpload env r fs).fs p = fs p) ∧
    Op.osCreate zipPath true ∈ (serveUpload env r fs).trace ∧
    (((∃ fh ∈ form.File "files", ¬ extAllowed fh.Filename) ∧
        (serveUpload env r fs).w =
          errorResponse "Only PDF and JPEG files are allowed" StatusBadRequest ∧
        ∀ op ∈ (serveUpload env r fs).trace, op.isFailure = false) ∨
      ((∃ msg ∈ ["Failed to open uploaded file", "Failed to create ZIP entry",
            "Failed to write file to ZIP", "Failed to finalize ZIP archive"],
          (serveUpload env r fs).w = errorResponse msg StatusInternalServerError) ∧
        (∃ op ∈ (serveUpload env r fs).trace, op.isFailure = true) ∧
        ((∃ k, k < (form.File "files").length ∧ env.failsAt k) ∨ env.zipCloseErr ≠ none)) ∨
      ((∀ fh ∈ form.File "files", extAllowed fh.Filename) ∧
        (serveUpload env r fs).w =
          serveContent zipHeaderWriter r
            (Content.zip ((form.File "files").map toEntry) true) ∧
        Op.serveFile zipPath (some (Content.zip ((form.File "files").map toEntry) true)) ∈
          (serveUpload env r fs).trace ∧
        (∀ op ∈ (serveUpload env r fs).trace, op.isFailure = false) ∧
        env.zipCloseErr = none)) := by
  unfold serveUpload
  rw [upload_run env _ r fs form hm hsize hform hn hc]
  refine ⟨?_, runDefers_removed _ _, ?_, ?_, ?_⟩
  · rw [runDefers_log, archiveAndServe_log]
  · intro p hp
    rw [runDefers_frame _ _ p hp, archiveAndServe_frame _ _ _ _ p hp]
    simp [FS.write, hp]
  · simp only [runDefers, List.mem_append]
    exact Or.inl (Or.inl (archiveAndServe_trace_mono _ _ _ _ _ (by simp)))
  · have hs0 : ∀ op ∈ [Op.osCreate zipPath true], op.isFailure = false := by
      intro op hop
      rw [List.mem_singleton] at hop
      subst hop
      rfl
    rcases archiveAndServe_cases env r (form.File "files")
        { w := ResponseWriter.fresh, fs := fs.write zipPath (Content.raw []), log := [],
          trace := [Op.osCreate zipPath true], zw := ZipWriter.new, opened := [] }
        rfl rfl hs0 with
      ⟨hbad, hw, htr⟩ | ⟨hmsg, ⟨op, hop, hf⟩, henv⟩ | ⟨hall, hw, hserved, htr, hcl⟩
    · exact Or.inl ⟨hbad, by rw [runDefers_w]; exact hw, runDefers_noFail _ _ htr⟩
    · refine Or.inr (Or.inl ⟨?_, ⟨op, (runDefers_failed _ _ op hf).mpr hop, hf⟩, henv⟩)
      obtain ⟨msg, hmem, hw⟩ := hmsg
      exact ⟨msg, hmem, by rw [runDefers_w]; exact hw⟩
    · refine Or.inr (Or.inr ⟨hall, by rw [runDefers_w]; exact hw, ?_,
        runDefers_noFail _ _ htr, hcl⟩)
      simp only [runDefers, List.mem_append]
      exact Or.inl (Or.inl hserved)

/-- Every request is stopped by the method test, by the parsing, or reaches line 66. -/
theorem request_cases (r : Request) :
    r.Method ≠ "POST" ∨
    (r.Method = "POST" ∧ (r.bodySize - r.unread > maxUploadSize ∨ r.form = none)) ∨
    (∃ form, r.Method = "POST" ∧ r.bodySize - r.unread ≤ maxUploadSize ∧
      r.form = some form) := by
  by_cases hm : r.Method = "POST"
  · by_cases hsize : r.bodySize - r.unread > maxUploadSize
    · exact Or.inr (Or.inl ⟨hm, Or.inl hsize⟩)
    · cases hf : r.form with
      | none => exact Or.inr (Or.inl ⟨hm, Or.inr rfl⟩)
      | some form => exact Or.inr (Or.inr ⟨form, hm, Nat.le_of_not_gt hsize, rfl⟩)
  · exact Or.inl hm

/-- An operation failing on a file reached by the loop, every file up to it being
allowed, stops the loop with one of the three 500 of lines 94, 102 and 107. -/
theorem archiveLoop_fails (env : Env) (pre : List FileHeader) (f : FileHeader)
    (post : List FileHeader) (hf : extAllowed f.Filename) :
    ∀ (i : Nat) (s : Run), (∀ fh ∈ pre, extAllowed fh.Filename) →
      env.failsAt (i + pre.length) →
      (archiveLoop env (pre ++ f :: post) i s).2 = true ∧
      ∃ msg ∈ ["Failed to open uploaded file", "Failed to create ZIP entry",
          "Failed to write file to ZIP"],
        (archiveLoop env (pre ++ f :: post) i s).1.w =
          httpError s.w msg StatusInternalServerError := by
  have hhead : ∀ (fh : FileHeader) (rest : List FileHeader) (i : Nat) (s : Run),
      extAllowed fh.Filename → env.failsAt i →
      (archiveLoop env (fh :: rest) i s).2 = true ∧
      ∃ msg ∈ ["Failed to open uploaded file", "Failed to create ZIP entry",
          "Failed to write file to ZIP"],
        (archiveLoop env (fh :: rest) i s).1.w =
          httpError s.w msg StatusInternalServerError := by
    intro fh rest i s h hfail
    cases ho : env.openErr i with
    | some e =>
      rw [archiveLoop_openErr env fh rest i s h e ho]
      exact ⟨rfl, _, by simp, rfl⟩
    | none =>
      cases hc : env.zipCreateErr i with
      | some e =>
        rw [archiveLoop_zipCreateErr env fh rest i s h e ho hc]
        exact ⟨rfl, _, by simp, rfl⟩
      | none =>
        cases hw : env.copyErr i with
        | some ne =>
          obtain ⟨n, e⟩ := ne
          rw [archiveLoop_copyErr env fh rest i s h n e ho hc hw]
          exact ⟨rfl, _, by simp, rfl⟩
        | none =>
          rcases hfail with h1 | h1 | h1
          · exact absurd ho h1
          · exact absurd hc h1
          · exact absurd hw h1
  induction pre with
  | nil =>
    intro i s _ hfail
    rw [List.nil_append]
    exact hhead f post i s hf (by simpa using hfail)
  | cons fh rest ih =>
    intro i s hall hfail
    have h := hall fh (List.mem_cons_self _ _)
    rw [List.cons_append]
    by_cases hnow : env.failsAt i
    · exact hhead fh _ i s h hnow
    · have ho : env.openErr i = none := by
        by_contra hne; exact hnow (Or.inl hne)
      have hc : env.zipCreateErr i = none := by
        by_contra hne; exact hnow (Or.inr (Or.inl hne))
      have hw : env.copyErr i = none := by
        by_contra hne; exact hnow (Or.inr (Or.inr hne))
      rw [archiveLoop_next env fh _ i s h ho hc hw]
      apply ih
      · intro g hg
        exact hall g (List.mem_cons_of_mem _ hg)
      · rwa [List.length_cons, show i + (rest.length + 1) = i + 1 + rest.length by omega]
          at hfail

/-! ## The extension: `filepath.Ext` against the wording of the specification -/

theorem lastDotSuffix_nodot (l : List Char) (h : '.' ∉ l) : lastDotSuffix l = [] := by
  induction l with
  | nil => rfl
  | cons c cs ih =>
    have hc : c ≠ '.' := fun e => h (e ▸ List.mem_cons_self _ _)
    have hcs : '.' ∉ cs := fun e => h (List.mem_cons_of_mem _ e)
    simp [lastDotSuffix, hc, hcs]

theorem lastDotSuffix_at_dot (pre suf : List Char) (h : '.' ∉ suf) :
    lastDotSuffix (pre ++ '.' :: suf) = '.' :: suf := by
  induction pre with
  | nil => simp [lastDotSuffix, h]
  | cons c cs ih => simp [lastDotSuffix, ih]

theorem lastDotSuffix_keeps (pre suf : List Char) (h : '.' ∉ suf) :
    lastDotSuffix (pre ++ suf) = [] ∨ ∃ q, lastDotSuffix (pre ++ suf) = q ++ suf := by
  induction pre with
  | nil => exact Or.inl (lastDotSuffix_nodot suf h)
  | cons c cs ih =>
    by_cases hdot : '.' ∈ cs ++ suf
    · simpa [lastDotSuffix, hdot] using ih
    · by_cases hc : c = '.'
      · refine Or.inr ⟨c :: cs, ?_⟩
        rw [List.cons_append, lastDotSuffix, if_neg hdot, if_pos hc]
      · refine Or.inl ?_
        rw [List.cons_append, lastDotSuffix, if_neg hdot, if_neg hc]

/-- The scan of `filepath.Ext` returns the suffix from the last dot, except when a
separator follows that dot: then it returns the empty string. -/
theorem extScan_spec (rl : List Char) :
    ∀ suf : List Char, '.' ∉ suf → '/' ∉ suf →
      extScan rl suf = lastDotSuffix (rl.reverse ++ suf) ∨
      (extScan rl suf = [] ∧ '/' ∈ lastDotSuffix (rl.reverse ++ suf)) := by
  induction rl with
  | nil =>
    intro suf hdot _
    left
    simp [extScan, lastDotSuffix_nodot suf hdot]
  | cons c before ih =>
    intro suf hdot hsep
    rw [List.reverse_cons, List.append_assoc, List.singleton_append]
    by_cases hc : c = '/'
    · subst hc
      have hscan : extScan ('/' :: before) suf = [] := by simp [extScan, isPathSeparator]
      rw [hscan]
      have hdot2 : '.' ∉ '/' :: suf := by
        intro hmem
        rcases List.mem_cons.mp hmem with h | h
        · exact absurd h (by decide)
        · exact hdot h
      rcases lastDotSuffix_keeps before.reverse ('/' :: suf) hdot2 with h | ⟨q, h⟩
      · left; rw [h]
      · right; rw [h]; exact ⟨rfl, List.mem_append_right _ (List.mem_cons_self _ _)⟩
    · by_cases hd : c = '.'
      · subst hd
        left
        rw [lastDotSuffix_at_dot _ _ hdot]
        simp [extScan, isPathSeparator]
      · have hstep : extScan (c :: before) suf = extScan before (c :: suf) := by
          simp [extScan, isPathSeparator, hc, hd]
        rw [hstep]
        apply ih
        · intro hmem
          rcases List.mem_cons.mp hmem with h | h
          · exact hd h.symm
          · exact hdot h
        · intro hmem
          rcases List.mem_cons.mp hmem with h | h
          · exact hc h.symm
          · exact hsep h

theorem Ext_spec (name : String) :
    Ext name = specExt name ∨ (Ext name = "" ∧ '/' ∈ (specExt name).data) := by
  have h := extScan_spec name.data.reverse [] (by simp) (by simp)
  rw [List.reverse_reverse, List.append_nil] at h
  rcases h with h | ⟨h1, h2⟩
  · left; unfold Ext specExt; rw [h]
  · right
    refine ⟨?_, h2⟩
    unfold Ext; rw [h1]

theorem toLower_keeps_sep (s : String) (h : '/' ∈ s.data) : '/' ∈ (ToLower s).data := by
  have : toLowerRune '/' = '/' := by decide
  rw [← this]
  exact List.mem_map_of_mem _ h

theorem not_allowed_of_sep (s : String) (h : '/' ∈ s.data) :
    ¬ (ToLower s = ".pdf" ∨ ToLower s = ".jpg" ∨ ToLower s = ".jpeg") := by
  have hl := toLower_keeps_sep s h
  rintro (e | e | e) <;> rw [e] at hl <;> revert hl <;> decide

/-- The test of line 87 accepts a name exactly when its extension as worded in the
specification is, case-insensitively, `.pdf`, `.jpg` or `.jpeg`. -/
theorem allowed_iff_spec (name : String) : extAllowed name ↔ specAllowed name := by
  unfold extAllowed specAllowed
  rcases Ext_spec name with h | ⟨h1, h2⟩
  · rw [h]
  · constructor
    · intro h
      rw [h1] at h
      have hempty : ¬ (ToLower "" = ".pdf" ∨ ToLower "" = ".jpg" ∨ ToLower "" = ".jpeg") := by
        decide
      exact absurd h hempty
    · intro h
      exact absurd h (not_allowed_of_sep _ h2)

/-- The responses a POST request with a parsed body can get. -/
theorem upload_parsed_response (env : Env) (r : Request) (fs : FS) (form : MultipartForm)
    (hm : r.Method = "POST") (hsize : r.bodySize - r.unread ≤ maxUploadSize)
    (hform : r.form = some form) :
    ((form.File "files").length ≠ 3 ∧
      (serveUpload env r fs).w = errorResponse "Please upload exactly 3 files" 400) ∨
    ((form.File "files").length = 3 ∧
      ((serveUpload env r fs).w = errorResponse "Only PDF and JPEG files are allowed" 400 ∨
      (∃ msg ∈ ["Failed to create ZIP archive", "Failed to open uploaded file",
          "Failed to create ZIP entry", "Failed to write file to ZIP",
          "Failed to finalize ZIP archive"],
        (serveUpload env r fs).w = errorResponse msg 500) ∨
      (serveUpload env r fs).w =
        serveContent zipHeaderWriter r
          (Content.zip ((form.File "files").map toEntry) true))) := by
  by_cases hn : (form.File "files").length = 3
  · refine Or.inr ⟨hn, ?_⟩
    cases hc : env.osCreateErr with
    | some e =>
      refine Or.inr (Or.inl ⟨"Failed to create ZIP archive", by simp, ?_⟩)
      unfold serveUpload
      rw [upload_createErr env _ r fs form e hm hsize hform hn hc, httpError_fresh]
      rfl
    | none =>
      obtain ⟨-, -, -, -, hcases⟩ := upload_created env r fs form hm hsize hform hn hc
      rcases hcases with ⟨-, hw, -⟩ | ⟨⟨msg, hmem, hw⟩, -, -⟩ | ⟨-, hw, -, -, -⟩
      · exact Or.inl hw
      · refine Or.inr (Or.inl ⟨msg, ?_, hw⟩)
        simp only [List.mem_cons, List.mem_singleton, List.not_mem_nil, or_false] at hmem ⊢
        tauto
      · exact Or.inr (Or.inr hw)
  · refine Or.inl ⟨hn, ?_⟩
    unfold serveUpload
    rw [upload_wrongCount env _ r fs form hm hsize hform hn, httpError_fresh]
    rfl

theorem close_fst_same (zw : ZipWriter) (e e2 : Option String)
    (h : e.isSome = e2.isSome) : (zw.Close e).1 = (zw.Close e2).1 := by
  cases e <;> cases e2 <;> simp [ZipWriter.Close] at h ⊢
  split <;> rfl

theorem close_snd_same (zw : ZipWriter) (e e2 : Option String)
    (h : e.isSome = e2.isSome) : (zw.Close e).2.isSome = (zw.Close e2).2.isSome := by
  cases e <;> cases e2 <;> simp [ZipWriter.Close] at h ⊢
  all_goals split
  all_goals rfl

/-- The body of the handler does not look at the error texts. -/
theorem archiveAndServe_sameFailures (env env2 : Env) (hsame : env.sameFailures env2)
    (files : List FileHeader) (s : Run) :
    archiveAndServe env r files s = archiveAndServe env2 r files s := by
  have hloop := archiveLoop_sameFailures env env2 hsame files 0 s
  have h1 := close_fst_same (archiveLoop env files 0 s).1.zw _ _ hsame.2.1
  have h2 := close_snd_same (archiveLoop env files 0 s).1.zw _ _ hsame.2.1
  cases hret : (archiveLoop env files 0 s).2 with
  | true =>
    rw [archiveAndServe_returned env r files s hret,
      archiveAndServe_returned env2 r files s (hloop ▸ hret), hloop]
  | false =>
    have hret2 : (archiveLoop env2 files 0 s).2 = false := hloop ▸ hret
    cases hc : ((archiveLoop env files 0 s).1.zw.Close env.zipCloseErr).2 with
    | some e =>
      cases hc2 : ((archiveLoop env files 0 s).1.zw.Close env2.zipCloseErr).2 with
      | none => rw [hc, hc2] at h2; simp at h2
      | some e2 =>
        rw [archiveAndServe_closeErr env r files s e hret hc,
          archiveAndServe_closeErr env2 r files s e2 hret2 (hloop ▸ hc2), ← hloop, h1]
    | none =>
      cases hc2 : ((archiveLoop env files 0 s).1.zw.Close env2.zipCloseErr).2 with
      | some e2 => rw [hc, hc2] at h2; simp at h2
      | none =>
        rw [archiveAndServe_served env r files s hret hc,
          archiveAndServe_served env2 r files s hret2 (hloop ▸ hc2), ← hloop, h1]

/-- The response does not depend on the error texts. -/
theorem serveUpload_sameFailures (env env2 : Env) (hsame : env.sameFailures env2)
    (r : Request) (fs : FS) :
    (serveUpload env2 r fs).w = (serveUpload env r fs).w := by
  rcases request_cases r with hm | ⟨hm, hbad⟩ | ⟨form, hm, hsize, hform⟩
  · unfold serveUpload; rw [upload_notPost env _ r fs hm, upload_notPost env2 _ r fs hm]
  · unfold serveUpload
    rw [upload_parseErr env _ r fs hm hbad, upload_parseErr env2 _ r fs hm hbad]
  · by_cases hn : (form.File "files").length = maxFiles
    · cases hc : env.osCreateErr with
      | some e =>
        cases hc2 : env2.osCreateErr with
        | none => have := hsame.1; rw [hc, hc2] at this; simp at this
        | some e2 =>
          unfold serveUpload
          rw [upload_createErr env _ r fs form e hm hsize hform hn hc,
            upload_createErr env2 _ r fs form e2 hm hsize hform hn hc2]
      | none =>
        cases hc2 : env2.osCreateErr with
        | some e2 => have := hsame.1; rw [hc, hc2] at this; simp at this
        | none =>
          unfold serveUpload
          rw [upload_run env _ r fs form hm hsize hform hn hc,
            upload_run env2 _ r fs form hm hsize hform hn hc2, runDefers_w, runDefers_w,
            archiveAndServe_sameFailures env env2 hsame]
    · unfold serveUpload
      rw [upload_wrongCount env _ r fs form hm hsize hform hn,
        upload_wrongCount env2 _ r fs form hm hsize hform hn]

/-! ## The properties of the specification -/

/-- C1, as stated, fails on the response: the upload `a.pdf`, `b.jpg`, `c.jpeg`, sent by
POST in a small well-formed body with no failing operation, is answered 206 with ten
bytes of the archive when the request has a `Range` header, and 412 with no body when it
has an `If-Match` header which does not hold. -/
theorem upload_roundtrip_counterexample :
    ((rangeRequest sampleFiles).Method = "POST" ∧
      (rangeRequest sampleFiles).bodySize ≤ maxUploadSize ∧
      (rangeRequest sampleFiles).form = some (formOf sampleFiles) ∧
      ((formOf sampleFiles).File "files").length = 3 ∧
      ∀ fh ∈ (formOf sampleFiles).File "files", specAllowed fh.Filename) ∧
    ((serveUpload Env.ok (rangeRequest sampleFiles) FS.empty).w.status = some 206 ∧
      (serveUpload Env.ok (rangeRequest sampleFiles) FS.empty).w.body =
        [Chunk.fragment (Content.zip
          [⟨"a.pdf", [1, 2]⟩, ⟨"b.jpg", [3]⟩, ⟨"c.jpeg", []⟩] true) 0 10]) ∧
    ((serveUpload Env.ok (ifMatchRequest sampleFiles) FS.empty).w.status = some 412 ∧
      (serveUpload Env.ok (ifMatchRequest sampleFiles) FS.empty).w.body = []) := by
  refine ⟨⟨rfl, by decide, rfl, rfl, by decide⟩, ?_, ?_⟩ <;> decide

/-- C1, amended: for a POST request whose body parses within the size limit, carrying
exactly 3 files under `files`, each with an extension that is case-insensitively `.pdf`,
`.jpg` or `.jpeg`, and for which no I/O operation fails, the archive produced and handed
to `http.ServeFile` is the finalized archive whose entries are, in upload order, the
names and bytes of the uploaded files: exactly 3 entries, entry `i` being file `i`; when
the request has no range or conditional header the response is 200 and its body is that
whole archive. -/
theorem upload_roundtrip (env : Env) (r : Request) (fs : FS) (form : MultipartForm)
    (hm : r.Method = "POST") (hsize : r.bodySize - r.unread ≤ maxUploadSize)
    (hform : r.form = some form) (hn : (form.File "files").length = 3)
    (hall : ∀ fh ∈ form.File "files", specAllowed fh.Filename)
    (hio : env.noFailure 3) :
    Op.serveFile zipPath (some (Content.zip ((form.File "files").map toEntry) true)) ∈
      (serveUpload env r fs).trace ∧
    ((form.File "files").map toEntry).length = 3 ∧
    (∀ (i : Nat) (fh : FileHeader), (form.File "files")[i]? = some fh →
      ((form.File "files").map toEntry)[i]? = some ⟨fh.Filename, fh.content⟩) ∧
    (r.serve = ServeMode.whole →
      (serveUpload env r fs).w.status = some 200 ∧
      (serveUpload env r fs).w.body =
        [Chunk.file (Content.zip ((form.File "files").map toEntry) true)]) := by
  obtain ⟨hcreate, hclose, hfile⟩ := hio
  obtain ⟨-, -, -, -, hcases⟩ := upload_created env r fs form hm hsize hform hn hcreate
  have hresp : (serveUpload env r fs).w = serveContent zipHeaderWriter r
        (Content.zip ((form.File "files").map toEntry) true) ∧
      Op.serveFile zipPath (some (Content.zip ((form.File "files").map toEntry) true)) ∈
        (serveUpload env r fs).trace := by
    rcases hcases with ⟨⟨fh, hfh, hbad⟩, -, -⟩ | ⟨-, -, henv⟩ | ⟨-, hw, hserved, -, -⟩
    · exact absurd ((allowed_iff_spec _).mpr (hall fh hfh)) hbad
    · rcases henv with ⟨k, hk, hfail⟩ | hcl
      · rw [hn] at hk
        obtain ⟨h1, h2, h3⟩ := hfile k hk
        rcases hfail with h | h | h
        · exact absurd h1 h
        · exact absurd h2 h
        · exact absurd h3 h
      · exact absurd hclose hcl
    · exact ⟨hw, hserved⟩
  refine ⟨hresp.2, by simpa using hn, ?_, ?_⟩
  · intro i fh hi
    rw [List.getElem?_map, hi]
    rfl
  · intro hserve
    rw [hresp.1, serveContent_whole r _ hserve]
    exact ⟨rfl, rfl⟩

/-- C1, amended, on the upload `a.pdf`, `b.jpg`, `c.jpeg`: status 200 and an archive with
the three entries named exactly so. -/
theorem upload_roundtrip_witness :
    (serveUpload Env.ok (requestOf "POST" sampleFiles) FS.empty).w.status = some 200 ∧
    (serveUpload Env.ok (requestOf "POST" sampleFiles) FS.empty).w.body =
      [Chunk.file (Content.zip
        [⟨"a.pdf", [1, 2]⟩, ⟨"b.jpg", [3]⟩, ⟨"c.jpeg", []⟩] true)] :=
  (upload_roundtrip Env.ok (requestOf "POST" sampleFiles) FS.empty
    (formOf sampleFiles) rfl (by decide) rfl rfl (by decide)
    ⟨rfl, rfl, fun _ _ => ⟨rfl, rfl, rfl⟩⟩).2.2.2 rfl

/-- C4: a request whose method is not POST gets status 405, whatever its body, its files,
the outcomes of I/O and the filesystem; no operation is performed (no archive file is
created) and the filesystem is unchanged. -/
theorem notPost_405 (env : Env) (r : Request) (fs : FS) (hm : r.Method ≠ "POST") :
    (serveUpload env r fs).w.status = some 405 ∧
    (serveUpload env r fs).w.body = [Chunk.text "Method not allowed\n"] ∧
    (serveUpload env r fs).trace = [] ∧
    (serveUpload env r fs).fs = fs := by
  unfold serveUpload
  rw [upload_notPost env _ r fs hm, httpError_fresh]
  exact ⟨rfl, rfl, rfl, rfl⟩

/-- C4, on a GET request carrying three allowed files. -/
theorem notPost_405_witness :
    (serveUpload Env.ok (requestOf "GET" sampleFiles) FS.sample).w.status = some 405 ∧
    (serveUpload Env.ok (requestOf "GET" sampleFiles) FS.sample).trace = [] ∧
    (serveUpload Env.ok (requestOf "GET" sampleFiles) FS.sample).fs = FS.sample :=
  have h := notPost_405 Env.ok (requestOf "GET" sampleFiles) FS.sample (by decide)
  ⟨h.1, h.2.2.1, h.2.2.2⟩

/-- C3, as stated, fails: the upload `a.pdf`, `b.exe`, `c.jpeg` has a disallowed file, yet
it is answered 405 when the method is GET, and 500 when creating the archive file fails
or when opening the first file, which comes before the disallowed one, fails. -/
theorem disallowed_counterexample :
    (∃ fh ∈ (formOf exeFiles).File "files", ¬ specAllowed fh.Filename) ∧
    (serveUpload Env.ok (requestOf "GET" exeFiles) FS.empty).w.status = some 405 ∧
    (serveUpload Env.createFails (requestOf "POST" exeFiles) FS.empty).w.status = some 500 ∧
    (serveUpload Env.openFails (requestOf "POST" exeFiles) FS.empty).w.status = some 500 := by
  decide

/-- C3, amended: a POST request in which an uploaded file has an extension outside
`.pdf`, `.jpg`, `.jpeg` (the suffix of the filename from its last dot, compared
case-insensitively) gets status 400, whatever the position of that file and whatever
follows it, provided creating the archive file and the operations on the files before the
first disallowed one do not fail; when the body parses within the limit and carries
exactly 3 files the body of the response is the message about the allowed types. -/
theorem disallowed_rejected (env : Env) (r : Request) (fs : FS) (form : MultipartForm)
    (pre : List FileHeader) (bad : FileHeader) (post : List FileHeader)
    (hm : r.Method = "POST") (hform : r.form = some form)
    (hfiles : form.File "files" = pre ++ bad :: post)
    (hpre : ∀ fh ∈ pre, specAllowed fh.Filename)
    (hbad : ¬ specAllowed bad.Filename)
    (hcreate : env.osCreateErr = none)
    (hio : env.noFileFailure pre.length) :
    (serveUpload env r fs).w.status = some 400 ∧
    (r.bodySize ≤ maxUploadSize → (form.File "files").length = 3 →
      (serveUpload env r fs).w.body =
        [Chunk.text "Only PDF and JPEG files are allowed\n"]) := by
  have hbad2 : ¬ extAllowed bad.Filename := fun h => hbad ((allowed_iff_spec _).mp h)
  have hpre2 : ∀ fh ∈ pre, extAllowed fh.Filename :=
    fun fh h => (allowed_iff_spec _).mpr (hpre fh h)
  have hthree : r.bodySize - r.unread ≤ maxUploadSize → (form.File "files").length = 3 →
      (serveUpload env r fs).w =
        errorResponse "Only PDF and JPEG files are allowed" 400 := by
    intro hsize hn
    have hio2 : ∀ k, k < pre.length → env.openErr (0 + k) = none ∧
        env.zipCreateErr (0 + k) = none ∧ env.copyErr (0 + k) = none := by
      intro k hk
      rw [Nat.zero_add]
      exact hio k hk
    unfold serveUpload
    rw [upload_run env _ r fs form hm hsize hform hn hcreate, runDefers_w, hfiles]
    obtain ⟨hret, hw⟩ := archiveLoop_reject env pre bad post hbad2 0
      { w := ResponseWriter.fresh, fs := fs.write zipPath (Content.raw []), log := [],
        trace := [Op.osCreate zipPath true], zw := ZipWriter.new, opened := [] } hpre2 hio2
    rw [archiveAndServe_returned _ _ _ _ hret, hw, httpError_fresh]
    rfl
  refine ⟨?_, fun hsize hn => by
    rw [hthree (Nat.le_trans (Nat.sub_le _ _) hsize) hn]; rfl⟩
  by_cases hsize : r.bodySize - r.unread ≤ maxUploadSize
  · by_cases hn : (form.File "files").length = 3
    · rw [hthree hsize hn]; rfl
    · unfold serveUpload
      rw [upload_wrongCount env _ r fs form hm hsize hform hn, httpError_fresh]
      rfl
  · unfold serveUpload
    rw [upload_parseErr env _ r fs hm (Or.inl (Nat.lt_of_not_le hsize)), httpError_fresh]
    rfl

/-- C3, amended, on the upload `a.pdf`, `b.exe`, `c.jpeg`: status 400 and the message about
the allowed types, the first file being already in the archive when `b.exe` is met. -/
theorem disallowed_rejected_witness :
    (serveUpload Env.ok (requestOf "POST" exeFiles) FS.empty).w.status = some 400 ∧
    (serveUpload Env.ok (requestOf "POST" exeFiles) FS.empty).w.body =
      [Chunk.text "Only PDF and JPEG files are allowed\n"] :=
  have h := disallowed_rejected Env.ok (requestOf "POST" exeFiles) FS.empty
    (formOf exeFiles) [⟨"a.pdf", [1, 2]⟩] ⟨"b.exe", [3]⟩ [⟨"c.jpeg", []⟩]
    rfl rfl rfl (by decide) (by decide) rfl (fun _ _ => ⟨rfl, rfl, rfl⟩)
  ⟨h.1, h.2 (by decide) rfl⟩

/-- C5, as stated, fails: a POST body of 30 MB and one byte whose last byte comes after
the closing boundary of the multipart form, carrying `a.pdf`, `b.jpg`, `c.jpeg`, is not
rejected: the files are processed and the answer is 200 with the archive. -/
theorem oversized_counterexample :
    ((paddedRequest sampleFiles).Method = "POST" ∧
      (paddedRequest sampleFiles).bodySize > maxUploadSize) ∧
    (serveUpload Env.ok (paddedRequest sampleFiles) FS.empty).w.status = some 200 ∧
    (serveUpload Env.ok (paddedRequest sampleFiles) FS.empty).w.body =
      [Chunk.file (Content.zip
        [⟨"a.pdf", [1, 2]⟩, ⟨"b.jpg", [3]⟩, ⟨"c.jpeg", []⟩] true)] ∧
    Op.fileOpen 0 true ∈ (serveUpload Env.ok (paddedRequest sampleFiles) FS.empty).trace := by
  refine ⟨⟨rfl, by decide⟩, ?_, ?_, ?_⟩ <;> decide

/-- C5, amended: the limit is 30*1024*1024 bytes; a POST request in which the part of the
body read by the multipart reader (the body without what follows the closing boundary)
is larger gets status 400 before anything is processed: no operation is performed (no
file opened, no extension checked, no archive file created) and the filesystem is
unchanged; a POST request in which that part is at most that large, so every body of at
most 30 MB, gets the response about the size only when the parsing fails for another
reason (malformed body or URL query): a body of at most 30 MB is not rejected for its
size. -/
theorem oversized_rejected (env : Env) (r : Request) (fs : FS) (hm : r.Method = "POST") :
    maxUploadSize = 31457280 ∧
    (r.bodySize - r.unread > maxUploadSize →
      (serveUpload env r fs).w.status = some 400 ∧
      (serveUpload env r fs).w.body =
        [Chunk.text "Total files size too large (max 30MB)\n"] ∧
      (serveUpload env r fs).trace = [] ∧
      (serveUpload env r fs).fs = fs) ∧
    (r.bodySize - r.unread ≤ maxUploadSize →
      (serveUpload env r fs).w.body =
        [Chunk.text "Total files size too large (max 30MB)\n"] →
      r.form = none) ∧
    (r.bodySize ≤ maxUploadSize →
      (serveUpload env r fs).w.body =
        [Chunk.text "Total files size too large (max 30MB)\n"] →
      r.form = none) := by
  have hgeneral : r.bodySize - r.unread ≤ maxUploadSize →
      (serveUpload env r fs).w.body =
        [Chunk.text "Total files size too large (max 30MB)\n"] →
      r.form = none := by
    intro hsize hbody
    cases hform : r.form with
    | none => rfl
    | some form =>
      exfalso
      rcases upload_parsed_response env r fs form hm hsize hform with
        ⟨-, hw⟩ | ⟨-, hw | ⟨msg, hmem, hw⟩ | hw⟩
      · rw [hw] at hbody; revert hbody; decide
      · rw [hw] at hbody; revert hbody; decide
      · rw [hw] at hbody
        simp only [List.mem_cons, List.mem_singleton, List.not_mem_nil, or_false] at hmem
        rcases hmem with rfl | rfl | rfl | rfl | rfl <;> revert hbody <;> decide
      · rw [hw] at hbody
        rcases serveContent_body r (Content.zip ((form.File "files").map toEntry) true) with
          ⟨-, hz⟩ | ⟨-, -, hb | hb | hb | ⟨st, len, hb⟩ | ⟨rs, hb⟩⟩
        · rw [hz] at hbody; simp [zipResponse] at hbody
        · rw [hb] at hbody; simp at hbody
        · rw [hb] at hbody; revert hbody; decide
        · rw [hb] at hbody; revert hbody; decide
        · rw [hb] at hbody; simp at hbody
        · rw [hb] at hbody; simp at hbody
  refine ⟨rfl, ?_, hgeneral, fun h => hgeneral (Nat.le_trans (Nat.sub_le _ _) h)⟩
  · intro hbig
    unfold serveUpload
    rw [upload_parseErr env _ r fs hm (Or.inl hbig), httpError_fresh]
    exact ⟨rfl, rfl, rfl, rfl⟩

/-- C5, amended, on a multipart form one byte over the limit. -/
theorem oversized_rejected_witness :
    (serveUpload Env.ok oversizedRequest FS.sample).w.status = some 400 ∧
    (serveUpload Env.ok oversizedRequest FS.sample).trace = [] ∧
    (serveUpload Env.ok oversizedRequest FS.sample).fs = FS.sample :=
  have h := (oversized_rejected Env.ok oversizedRequest FS.sample rfl).2.1 (by decide)
  ⟨h.1, h.2.2.1, h.2.2.2⟩

/-- C7: for a POST request whose body parses within the size limit and carries exactly 3
files, an I/O failure met before any check fails makes the status 500 with one of five
fixed messages as body: `os.Create` failing; an operation (opening, creating the ZIP
entry, copying) failing on a file, every file up to that one having an allowed extension;
or `zipWriter.Close` failing, every file having an allowed extension.  The response is
the same in every environment where the same operations fail, whatever the error texts. -/
theorem ioFailure_500 (env : Env) (r : Request) (fs : FS) (form : MultipartForm)
    (hm : r.Method = "POST") (hsize : r.bodySize - r.unread ≤ maxUploadSize)
    (hform : r.form = some form) (hn : (form.File "files").length = 3)
    (hfail : env.osCreateErr ≠ none ∨
      (∃ pre f post, form.File "files" = pre ++ f :: post ∧
        (∀ fh ∈ pre, specAllowed fh.Filename) ∧ specAllowed f.Filename ∧
        env.failsAt pre.length) ∨
      (env.zipCloseErr ≠ none ∧ ∀ fh ∈ form.File "files", specAllowed fh.Filename)) :
    (serveUpload env r fs).w.status = some 500 ∧
    (serveUpload env r fs).w.body ∈ genericBodies ∧
    ∀ env2, env.sameFailures env2 →
      (serveUpload env2 r fs).w = (serveUpload env r fs).w := by
  have hw : ∃ msg ∈ ["Failed to create ZIP archive", "Failed to open uploaded file",
      "Failed to create ZIP entry", "Failed to write file to ZIP",
      "Failed to finalize ZIP archive"],
      (serveUpload env r fs).w = errorResponse msg 500 := by
    cases hc : env.osCreateErr with
    | some e =>
      refine ⟨"Failed to create ZIP archive", by simp, ?_⟩
      unfold serveUpload
      rw [upload_createErr env _ r fs form e hm hsize hform hn hc, httpError_fresh]
      rfl
    | none =>
      rcases hfail with h | ⟨pre, f, post, hfiles, hpre, hf, hat⟩ | ⟨hclose, hall⟩
      · exact absurd hc h
      · have hpre2 : ∀ fh ∈ pre, extAllowed fh.Filename :=
          fun fh h => (allowed_iff_spec _).mpr (hpre fh h)
        obtain ⟨hret, msg, hmem, hw⟩ := archiveLoop_fails env pre f post
          ((allowed_iff_spec _).mpr hf) 0
          { w := ResponseWriter.fresh, fs := fs.write zipPath (Content.raw []), log := [],
            trace := [Op.osCreate zipPath true], zw := ZipWriter.new, opened := [] }
          hpre2 (by simpa using hat)
        refine ⟨msg, ?_, ?_⟩
        · simp only [List.mem_cons, List.mem_singleton, List.not_mem_nil, or_false]
            at hmem ⊢
          tauto
        · unfold serveUpload
          rw [upload_run env _ r fs form hm hsize hform hn hc, runDefers_w, hfiles,
            archiveAndServe_returned _ _ _ _ hret, hw, httpError_fresh]
          rfl
      · obtain ⟨-, -, -, -, hcases⟩ := upload_created env r fs form hm hsize hform hn hc
        rcases hcases with ⟨⟨fh, hfh, hbad⟩, -, -⟩ | ⟨⟨msg, hmem, hw⟩, -, -⟩ |
          ⟨-, -, -, -, hcl⟩
        · exact absurd ((allowed_iff_spec _).mpr (hall fh hfh)) hbad
        · refine ⟨msg, ?_, hw⟩
          simp only [List.mem_cons, List.mem_singleton, List.not_mem_nil, or_false]
            at hmem ⊢
          tauto
        · exact absurd hcl hclose
  obtain ⟨msg, hmem, hw⟩ := hw
  refine ⟨by rw [hw]; rfl, ?_, fun env2 hsame => serveUpload_sameFailures env env2 hsame r fs⟩
  rw [hw]
  simp only [List.mem_cons, List.mem_singleton, List.not_mem_nil, or_false] at hmem
  rcases hmem with rfl | rfl | rfl | rfl | rfl <;> decide

/-- C7, on the five kinds of failure, each on the upload `a.pdf`, `b.jpg`, `c.jpeg`:
creating the archive file, opening the first file, creating the entry of the third,
copying the second, finalizing the archive; each gives status 500, and the failed copy
gives the fixed message of line 107, the same under another error text. -/
theorem ioFailure_500_witness :
    ((serveUpload Env.createFails (requestOf "POST" sampleFiles) FS.empty).w.status =
        some 500 ∧
      (serveUpload Env.openFails (requestOf "POST" sampleFiles) FS.empty).w.status =
        some 500 ∧
      (serveUpload Env.entryFails (requestOf "POST" sampleFiles) FS.empty).w.status =
        some 500 ∧
      (serveUpload Env.closeFails (requestOf "POST" sampleFiles) FS.empty).w.status =
        some 500) ∧
    (serveUpload Env.copyFails (requestOf "POST" sampleFiles) FS.empty).w.status = some 500 ∧
    (serveUpload Env.copyFails (requestOf "POST" sampleFiles) FS.empty).w.body =
      [Chunk.text "Failed to write file to ZIP\n"] ∧
    (serveUpload Env.copyFailsOther (requestOf "POST" sampleFiles) FS.empty).w =
      (serveUpload Env.copyFails (requestOf "POST" sampleFiles) FS.empty).w :=
  have h := ioFailure_500 Env.copyFails (requestOf "POST" sampleFiles) FS.empty
    (formOf sampleFiles) rfl (by decide) rfl rfl
    (Or.inr (Or.inl ⟨[⟨"a.pdf", [1, 2]⟩], ⟨"b.jpg", [3]⟩, [⟨"c.jpeg", []⟩], rfl,
      by decide, by decide, Or.inr (Or.inr (by decide))⟩))
  ⟨⟨(ioFailure_500 Env.createFails (requestOf "POST" sampleFiles) FS.empty
        (formOf sampleFiles) rfl (by decide) rfl rfl (Or.inl (by decide))).1,
      (ioFailure_500 Env.openFails (requestOf "POST" sampleFiles) FS.empty
        (formOf sampleFiles) rfl (by decide) rfl rfl
        (Or.inr (Or.inl ⟨[], ⟨"a.pdf", [1, 2]⟩, [⟨"b.jpg", [3]⟩, ⟨"c.jpeg", []⟩], rfl,
          by decide, by decide, Or.inl (by decide)⟩))).1,
      (ioFailure_500 Env.entryFails (requestOf "POST" sampleFiles) FS.empty
        (formOf sampleFiles) rfl (by decide) rfl rfl
        (Or.inr (Or.inl ⟨[⟨"a.pdf", [1, 2]⟩, ⟨"b.jpg", [3]⟩], ⟨"c.jpeg", []⟩, [], rfl,
          by decide, by decide, Or.inr (Or.inl (by decide))⟩))).1,
      (ioFailure_500 Env.closeFails (requestOf "POST" sampleFiles) FS.empty
        (formOf sampleFiles) rfl (by decide) rfl rfl
        (Or.inr (Or.inr ⟨by decide, by decide⟩))).1⟩,
    h.1, by decide,
    h.2.2 Env.copyFailsOther
      ⟨rfl, rfl, fun i => ⟨rfl, rfl, by
        by_cases hi : i = 1 <;> simp [Env.copyFails, Env.copyFailsOther, hi]⟩⟩⟩

/-- C8, as stated, fails: a POST body of 30 MB and one byte whose last byte comes after
the closing boundary of the multipart form, carrying two files, is oversized and yet is
answered by the 400 about the count, not by the 400 about the size. -/
theorem check_order_counterexample :
    ((paddedRequest twoFiles).Method = "POST" ∧
      (paddedRequest twoFiles).bodySize > maxUploadSize ∧
      ((formOf twoFiles).File "files").length ≠ 3) ∧
    (serveUpload Env.ok (paddedRequest twoFiles) FS.empty).w =
      errorResponse "Please upload exactly 3 files" 400 ∧
    (serveUpload Env.ok (paddedRequest twoFiles) FS.empty).w ≠
      errorResponse "Total files size too large (max 30MB)" 400 := by
  refine ⟨⟨rfl, by decide, by decide⟩, ?_, ?_⟩ <;> decide

/-- C8, amended: the checks are applied in the order method, parsing of the body, file
count, extension, and the first that fails decides the response: a non-POST request gets
the 405 whatever its body; a POST request whose body is malformed, or in which the part
read by the multipart reader (the body without what follows the closing boundary) is over
the limit, gets the 400 about the size whatever its files; a POST request with a parsed
body whose file count is not 3 gets the 400 about the count whatever the extensions; and
the 400 about the allowed types is only given to a POST request with a parsed body
carrying exactly 3 files. -/
theorem check_order (env : Env) (r : Request) (fs : FS) :
    (r.Method ≠ "POST" →
      (serveUpload env r fs).w = errorResponse "Method not allowed" 405) ∧
    (r.Method = "POST" → (r.bodySize - r.unread > maxUploadSize ∨ r.form = none) →
      (serveUpload env r fs).w =
        errorResponse "Total files size too large (max 30MB)" 400) ∧
    (∀ form, r.Method = "POST" → r.bodySize - r.unread ≤ maxUploadSize →
      r.form = some form → (form.File "files").length ≠ 3 →
      (serveUpload env r fs).w = errorResponse "Please upload exactly 3 files" 400) ∧
    ((serveUpload env r fs).w.body = [Chunk.text "Only PDF and JPEG files are allowed\n"] →
      ∃ form, r.Method = "POST" ∧ r.bodySize - r.unread ≤ maxUploadSize ∧
        r.form = some form ∧ (form.File "files").length = 3) := by
  refine ⟨?_, ?_, ?_, ?_⟩
  · intro hm
    unfold serveUpload
    rw [upload_notPost env _ r fs hm, httpError_fresh]
    rfl
  · intro hm hbad
    unfold serveUpload
    rw [upload_parseErr env _ r fs hm hbad, httpError_fresh]
    rfl
  · intro form hm hsize hform hn
    unfold serveUpload
    rw [upload_wrongCount env _ r fs form hm hsize hform hn, httpError_fresh]
    rfl
  · intro hbody
    rcases request_cases r with hm | ⟨hm, hbad⟩ | ⟨form, hm, hsize, hform⟩
    · exfalso
      unfold serveUpload at hbody
      rw [upload_notPost env _ r fs hm, httpError_fresh] at hbody
      revert hbody
      simp only [errorResponse]
      decide
    · exfalso
      unfold serveUpload at hbody
      rw [upload_parseErr env _ r fs hm hbad, httpError_fresh] at hbody
      revert hbody
      simp only [errorResponse]
      decide
    · rcases upload_parsed_response env r fs form hm hsize hform with
        ⟨-, hw⟩ | ⟨hn, -⟩
      · exfalso
        rw [hw] at hbody
        revert hbody
        decide
      · exact ⟨form, hm, hsize, hform, hn⟩

/-- C8, amended, on four requests: an oversized GET gets the 405; a POST whose multipart
form with two files is over the limit gets the 400 about the size; a POST with two files,
one of them `b.exe`, gets the 400 about the count; the upload `a.pdf`, `b.exe`,
`c.jpeg`, which gets the 400 about the allowed types, has exactly 3 files. -/
theorem check_order_witness :
    (serveUpload Env.ok oversizedGet FS.empty).w = errorResponse "Method not allowed" 405 ∧
    (serveUpload Env.ok oversizedRequest FS.empty).w =
      errorResponse "Total files size too large (max 30MB)" 400 ∧
    (serveUpload Env.ok (requestOf "POST" twoFilesExe) FS.empty).w =
      errorResponse "Please upload exactly 3 files" 400 ∧
    (∃ form, (requestOf "POST" exeFiles).Method = "POST" ∧
      (requestOf "POST" exeFiles).bodySize - (requestOf "POST" exeFiles).unread ≤
        maxUploadSize ∧
      (requestOf "POST" exeFiles).form = some form ∧ (form.File "files").length = 3) :=
  ⟨(check_order Env.ok oversizedGet FS.empty).1 (by decide),
    (check_order Env.ok oversizedRequest FS.empty).2.1 rfl (Or.inl (by decide)),
    (check_order Env.ok (requestOf "POST" twoFilesExe) FS.empty).2.2.1
      (formOf twoFilesExe) rfl (by decide) rfl (by decide),
    (check_order Env.ok (requestOf "POST" exeFiles) FS.empty).2.2.2 (by decide)⟩

/-- The upload handler writes nothing to the server log, on any request. -/
theorem upload_never_logs (env : Env) (r : Request) (fs : FS) :
    (serveUpload env r fs).log = [] := by
  rcases request_cases r with hm | ⟨hm, hbad⟩ | ⟨form, hm, hsize, hform⟩
  · unfold serveUpload; rw [upload_notPost env _ r fs hm]
  · unfold serveUpload; rw [upload_parseErr env _ r fs hm hbad]
  · by_cases hn : (form.File "files").length = maxFiles
    · cases hc : env.osCreateErr with
      | some e => unfold serveUpload; rw [upload_createErr env _ r fs form e hm hsize hform hn hc]
      | none => exact (upload_created env r fs form hm hsize hform hn hc).1
    · unfold serveUpload; rw [upload_wrongCount env _ r fs form hm hsize hform hn]

/-- The index responder writes a log record whenever a template call fails. -/
theorem index_logs_failures (t : TemplateEnv) (w : ResponseWriter)
    (h : t.parseErr ≠ none ∨ t.executeErr ≠ none) : (indexHandler t w).2 ≠ [] := by
  unfold indexHandler
  cases hp : t.parseErr with
  | some e => simp
  | none =>
    cases he : t.executeErr with
    | some oe => simp
    | none => rw [hp, he] at h; simp at h

/-- C10 fails on the code: three allowed files whose archive cannot be created
(`os.Create` fails), or cannot be finalized, are answered 500 and the upload handler
writes no log record, while the index responder, on a template failure, answers 500 and
writes one. -/
theorem upload_500_not_logged :
    ((serveUpload Env.createFails (requestOf "POST" sampleFiles) FS.empty).w.status = some 500 ∧
      (serveUpload Env.createFails (requestOf "POST" sampleFiles) FS.empty).log = []) ∧
    ((serveUpload Env.closeFails (requestOf "POST" sampleFiles) FS.empty).w.status = some 500 ∧
      (serveUpload Env.closeFails (requestOf "POST" sampleFiles) FS.empty).log = []) ∧
    ((indexHandler TemplateEnv.parseFails ResponseWriter.fresh).1.status = some 500 ∧
      (indexHandler TemplateEnv.parseFails ResponseWriter.fresh).2 =
        ["Error parsing template: open html/templates/index.html: no such file or directory"]) ∧
    ((indexHandler TemplateEnv.executeFails ResponseWriter.fresh).1.status = some 500 ∧
      (indexHandler TemplateEnv.executeFails ResponseWriter.fresh).2 =
        ["Error executing template: template: index.html: write error"]) := by
  decide

end Upload
